import Mathlib

/-!
Verification of the mnemon memory store against its specification.

The definitions below are shallow embeddings of the Python source under
`src/mnemon/`.  Text is modelled as Lean `String` over its character list;
exact rational arithmetic (`ℚ`) stands in for IEEE-754 doubles wherever the
code computes ratios of small integers, and `ℝ` with `Real.log` models the
transcendental IDF weight.  Sets built by Python `set()` are modelled as
`Finset String`.
-/

namespace Mnemon

/-- ASCII word character, the character class `[a-zA-Z0-9]` used by
`_WORD_RE` in `search/keyword.py` and `_WORD_SPLIT_RE` in `graph/entity.py`. -/
def wordChar (c : Char) : Bool :=
  ('a' ≤ c && c ≤ 'z') || ('A' ≤ c && c ≤ 'Z') || ('0' ≤ c && c ≤ '9')

/-- Lowercase a string character by character, modelling `str.lower()` on
ASCII text. -/
def lowerStr (s : String) : String :=
  String.mk (s.data.map Char.toLower)

/-- Accumulator pass of the word splitter: groups maximal runs of word
characters, modelling `re.findall(r'[a-zA-Z0-9]+', text)`. -/
def splitWordsAux : List Char → List Char → List String
  | [], acc => if acc.isEmpty then [] else [String.mk acc.reverse]
  | c :: cs, acc =>
    if wordChar c then splitWordsAux cs (c :: acc)
    else if acc.isEmpty then splitWordsAux cs []
    else String.mk acc.reverse :: splitWordsAux cs []

/-- Split a string into its alphanumeric words. -/
def splitWords (s : String) : List String :=
  splitWordsAux s.data []

/-- The stopword set of `search/keyword.py`. -/
def STOPWORDS : List String :=
  ["a", "an", "the", "is", "are", "was", "were", "be", "been", "being",
   "have", "has", "had", "do", "does", "did", "will", "would", "could",
   "should", "may", "might", "shall", "can", "to", "of", "in", "for",
   "on", "with", "at", "by", "from", "as", "into", "about", "that",
   "this", "it", "its", "or", "and", "but", "if", "not", "no", "so",
   "up", "out", "than", "then", "too", "very", "just", "also", "more",
   "some", "any", "all", "each", "i", "me", "my", "we", "you", "your",
   "he", "she", "they", "them", "his", "her", "our", "their", "what",
   "which", "who", "how", "when", "where"]

/-- `tokenize` from `search/keyword.py`: lowercase alphanumeric words with
stopwords removed, collected into a set. -/
def tokenize (s : String) : Finset String :=
  ((splitWords (lowerStr s)).filter (fun w => !(STOPWORDS.contains w))).toFinset

/-- `content_similarity` from `search/keyword.py`: the number of shared
tokens divided by each side's token count, taking the maximum. -/
def content_similarity (a b : String) : ℚ :=
  if tokenize a = ∅ ∨ tokenize b = ∅ then 0
  else
    max ((((tokenize a) ∩ (tokenize b)).card : ℚ) / (tokenize a).card)
        ((((tokenize a) ∩ (tokenize b)).card : ℚ) / (tokenize b).card)

/-- Does `needle` occur at the head of `hay`?  Used to model the Python
substring operator `in`. -/
def headMatch : List Char → List Char → Bool
  | [], _ => true
  | _ :: _, [] => false
  | a :: as_, b :: bs => a == b && headMatch as_ bs

/-- Does `needle` occur anywhere inside `hay` (Python `needle in hay`)? -/
def subOccurs (needle : List Char) : List Char → Bool
  | [] => headMatch needle []
  | c :: cs => headMatch needle (c :: cs) || subOccurs needle cs

/-- `NEGATION_WORDS` from `search/diff.py`. -/
def NEGATION_WORDS : List String :=
  ["not", "no longer", "don't", "doesn't", "never",
   "switched from", "instead of", "rather than", "replaced", "deprecated"]

/-- True when some negation phrase occurs as a substring of the lowercased
text, modelling the loop body of `classify_suggestion`. -/
def hasNegation (text : String) : Bool :=
  NEGATION_WORDS.any (fun w => subOccurs w.data (lowerStr text).data)

/-- `classify_suggestion` from `search/diff.py`. -/
def classify_suggestion (similarity : ℚ) (newText existingText : String) :
    String :=
  if similarity < 1/2 then "ADD"
  else if hasNegation newText || hasNegation existingText then "CONFLICT"
  else if similarity > 9/10 then "DUPLICATE"
  else "UPDATE"

/-- Single-word keyword class of `WHY_PATTERN` in `search/intent.py`. -/
def WHY_WORDS : List String :=
  ["why", "reason", "because", "cause", "motivation", "rationale"]

/-- Single-word keyword class of `WHEN_PATTERN` in `search/intent.py`. -/
def WHEN_WORDS : List String :=
  ["when", "time", "date", "before", "after", "during", "timeline",
   "history", "sequence"]

/-- Number of WHY keyword matches in a word sequence, modelling
`len(WHY_PATTERN.findall(q))` over a single-space-separated query. -/
def whyScore (ws : List String) : ℕ :=
  ws.countP (fun w => WHY_WORDS.contains w)

/-- Number of WHEN keyword matches. -/
def whenScore (ws : List String) : ℕ :=
  ws.countP (fun w => WHEN_WORDS.contains w)

/-- Number of ENTITY pattern matches, modelling
`len(ENTITY_PATTERN.findall(q))`: the regex scans left to right trying the
alternatives `what is`, `who is`, `tell me about`, `describe`, `about` in
order and resumes after each match. -/
def entityScore : List String → ℕ
  | "what" :: "is" :: rest => 1 + entityScore rest
  | "who" :: "is" :: rest => 1 + entityScore rest
  | "tell" :: "me" :: "about" :: rest => 1 + entityScore rest
  | "describe" :: rest => 1 + entityScore rest
  | "about" :: rest => 1 + entityScore rest
  | _ :: rest => entityScore rest
  | [] => 0

/-- `detect_intent` from `search/intent.py`, over the query's word
sequence (the query is lowercased before the patterns are counted). -/
def detect_intent (query : List String) : String :=
  if whyScore (query.map lowerStr) > whenScore (query.map lowerStr) ∧
      whyScore (query.map lowerStr) > entityScore (query.map lowerStr) ∧
      whyScore (query.map lowerStr) > 0
  then "WHY"
  else if whenScore (query.map lowerStr) > whyScore (query.map lowerStr) ∧
      whenScore (query.map lowerStr) > entityScore (query.map lowerStr) ∧
      whenScore (query.map lowerStr) > 0
  then "WHEN"
  else if entityScore (query.map lowerStr) > 0 then "ENTITY"
  else "GENERAL"

/-- The maximal count is attained by at least two of the three classes. -/
def tieAtMax (w n e : ℕ) : Prop :=
  (w = n ∧ e ≤ w) ∨ (w = e ∧ n ≤ w) ∨ (n = e ∧ w ≤ n)

instance (w n e : ℕ) : Decidable (tieAtMax w n e) := by
  unfold tieAtMax
  infer_instance

/-- `entity_idf_weight` from `graph/entity.py`; `math.log` is modelled by
`Real.log` over exact real arithmetic. -/
noncomputable def entity_idf_weight (docFreq totalDocs : ℤ) : ℝ :=
  if totalDocs ≤ 1 ∨ docFreq ≥ totalDocs then 0
  else if docFreq ≤ 0 then 1
  else max (Real.log ((totalDocs : ℝ) / (docFreq : ℝ)) /
            Real.log (totalDocs : ℝ)) (1/10)

/-- `serialize_vector` from `embed/vector.py`.  An IEEE-754 double is
modelled by its 8-byte little-endian representation (a list of byte
values), which CPython's `struct.pack('<d', ...)`/`unpack` maps to and
from bit-identically; at that level packing a vector is concatenating the
representations. -/
def serialize_vector (v : List (List ℕ)) : List ℕ :=
  if v = [] then [] else v.foldr (· ++ ·) []

/-- `count` consecutive 8-byte groups of a blob, modelling
`struct.unpack(f'<\x7bcount\x7dd', b)` at the byte level. -/
def chunksOfCount : ℕ → List ℕ → List (List ℕ)
  | 0, _ => []
  | n + 1, b => b.take 8 :: chunksOfCount n (b.drop 8)

/-- `deserialize_vector` from `embed/vector.py`: empty blobs and blobs
whose length is not a multiple of eight decode to nothing; otherwise the
blob splits into `len(b) // 8` doubles. -/
def deserialize_vector (b : List ℕ) : Option (List (List ℕ)) :=
  if b = [] then none
  else if b.length % 8 ≠ 0 then none
  else some (chunksOfCount (b.length / 8) b)

/-- The `Insight` dataclass of `model.py`.  Timestamps are modelled as
integer seconds (the stored RFC3339 strings compare chronologically);
floats that the code only ever compares or stores are modelled as `ℚ`. -/
structure Insight where
  id : String
  content : String
  category : String
  importance : ℤ
  tags : List String
  entities : List String
  source : String
  accessCount : ℤ
  createdAt : ℤ
  updatedAt : ℤ
  deletedAt : Option ℤ
  lastAccessedAt : Option ℤ
  effectiveImportance : ℚ
deriving DecidableEq, Repr

/-- The `Edge` dataclass of `model.py`; `metadata` is the dict as an
association list in insertion order. -/
structure Edge where
  sourceId : String
  targetId : String
  edgeType : String
  weight : ℚ
  metadata : List (String × String)
  createdAt : ℤ
deriving DecidableEq, Repr

/-- `insight_tokens` from `search/keyword.py`: tokens of the content,
then of each tag, then of each entity. -/
def insight_tokens (ins : Insight) : Finset String :=
  ins.entities.foldl (fun acc e => acc ∪ tokenize e)
    (ins.tags.foldl (fun acc t => acc ∪ tokenize t) (tokenize ins.content))

/-- Strict ordering on heap entries `(score, importance, id, _)`,
modelling Python tuple comparison on the first three components (the
fourth is never reached because ids are unique). -/
def entryLt (a b : ℚ × ℤ × String × Insight) : Bool :=
  a.1 < b.1 ||
    (a.1 == b.1 &&
      (a.2.1 < b.2.1 || (a.2.1 == b.2.1 && a.2.2.1 < b.2.2.1)))

/-- Insert into an ascending list, modelling `heapq.heappush`: the heap
is represented by its sorted ascending sequence, whose head is the heap
minimum and whose ascending pop order is the final result order. -/
def heapPush (e : ℚ × ℤ × String × Insight) :
    List (ℚ × ℤ × String × Insight) → List (ℚ × ℤ × String × Insight)
  | [] => [e]
  | x :: xs => if entryLt e x then e :: x :: xs else x :: heapPush e xs

/-- `keyword_search` from `search/keyword.py`.  The optional
`token_cache` dict is modelled as an association list threaded through
the fold; the heap as its ascending sequence (see `heapPush`). -/
def keyword_search (insights : List Insight) (query : String) (limit : ℤ)
    (tokenCache : Option (List (String × Finset String))) :
    List (Insight × ℚ) × Option (List (String × Finset String)) :=
  if tokenize query = ∅ then ([], tokenCache)
  else
    let final := insights.foldl (fun st ins =>
      let ct := insight_tokens ins
      let cache' := match st.2 with
        | none => none
        | some m => some (m ++ [(ins.id, ct)])
      let inter := ((tokenize query) ∩ ct).card
      if inter = 0 then (st.1, cache')
      else
        let score : ℚ := (inter : ℚ) / (tokenize query).card
        let entry := (score, ins.importance, ins.id, ins)
        if limit ≤ 0 ∨ st.1.length < limit.toNat then
          (heapPush entry st.1, cache')
        else match st.1 with
          | [] => (heapPush entry [], cache')
          | top :: rest =>
            if score > top.1 ∨ (score = top.1 ∧ ins.importance > top.2.1)
            then (heapPush entry rest, cache')
            else (top :: rest, cache'))
      (([] : List (ℚ × ℤ × String × Insight)), tokenCache)
    ((final.1.reverse).map (fun e => (e.2.2.2, e.1)), final.2)

/-- Word-boundary condition after a candidate match: the character
following the matched phrase, if any, is not a word character. -/
def boundaryAfter (needle rest : List Char) : Bool :=
  match rest.drop needle.length with
  | [] => true
  | c :: _ => !wordChar c

/-- Scan for a word-boundary occurrence of `needle`; `atB` records
whether the current position sits at a word boundary (start of text or
preceded by a non-word character). -/
def occursWBAux (needle : List Char) : Bool → List Char → Bool
  | _, [] => false
  | atB, c :: cs =>
    (atB && headMatch needle (c :: cs) && boundaryAfter needle (c :: cs)) ||
      occursWBAux needle (!wordChar c) cs

/-- `\b`-delimited occurrence of a phrase, modelling `re.search` of the
alternation patterns in `graph/causal.py` (every alternative starts and
ends with a word character). -/
def occursWB (needle text : List Char) : Bool :=
  occursWBAux needle true text

/-- The alternatives of `CAUSAL_PATTERN` in `graph/causal.py`
(lowercased; the pattern carries `re.IGNORECASE`). -/
def CAUSAL_PHRASES : List String :=
  ["because", "therefore", "due to", "caused by", "as a result",
   "decided to", "chosen because", "so that", "in order to", "leads to",
   "results in", "enables", "prevents", "consequently", "hence", "thus",
   "this ensures", "this means"]

/-- The alternatives of `ENABLES_PATTERN`. -/
def ENABLES_PHRASES : List String :=
  ["so that", "in order to", "enables", "leads to"]

/-- The alternatives of `PREVENTS_PATTERN`. -/
def PREVENTS_PHRASES : List String :=
  ["despite", "prevented", "prevents", "blocked"]

/-- `has_causal_signal` from `graph/causal.py`. -/
def hasCausalSignal (s : String) : Bool :=
  CAUSAL_PHRASES.any (fun p => occursWB p.data (lowerStr s).data)

/-- `suggest_sub_type` from `graph/causal.py`. -/
def suggest_sub_type (s : String) : String :=
  if PREVENTS_PHRASES.any (fun p => occursWB p.data (lowerStr s).data)
  then "prevents"
  else if ENABLES_PHRASES.any (fun p => occursWB p.data (lowerStr s).data)
  then "enables"
  else "causes"

/-- `token_overlap` from `graph/causal.py`:
`|A ∩ B| / max(|A|, |B|)`, `0` when either set is empty. -/
def token_overlap (a b : Finset String) : ℚ :=
  if a = ∅ ∨ b = ∅ then 0
  else ((a ∩ b).card : ℚ) / (max a.card b.card : ℕ)

/-- Four-digit zero padding for `formatFloat4`. -/
def pad4 (n : ℕ) : String :=
  if n < 10 then "000" ++ toString n
  else if n < 100 then "00" ++ toString n
  else if n < 1000 then "0" ++ toString n
  else toString n

/-- `format_float` from `model.py` (`f'{value:.4f}'`), modelled as
round-to-four-decimals over exact rationals (values formatted by the
code are nonnegative overlap/cosine ratios). -/
def formatFloat4 (q : ℚ) : String :=
  let r := round (q * 10000)
  toString (r / 10000) ++ "." ++ pad4 (r % 10000).toNat

/-- Two-digit zero padding for `formatFloat2`. -/
def pad2 (n : ℕ) : String :=
  if n < 10 then "0" ++ toString n else toString n

/-- `f'{hours_diff:.2f}'` from `graph/temporal.py`, same modelling as
`formatFloat4`. -/
def formatFloat2 (q : ℚ) : String :=
  let r := round (q * 100)
  toString (r / 100) ++ "." ++ pad2 (r % 100).toNat

/-- Per-candidate body of the loop in `create_causal_edges`
(`graph/causal.py`): skip when neither text has a causal signal or the
overlap is under `MIN_CAUSAL_OVERLAP = 0.15`; otherwise emit one
directed edge whose source is the previous insight (new insight is the
effect) unless only the previous text carries the signal, in which case
the new insight is the cause. -/
def causalEdgeFor (insight : Insight) (now : ℤ) (prev : Insight) :
    Option Edge :=
  if !(hasCausalSignal insight.content) && !(hasCausalSignal prev.content)
  then none
  else
    let overlap :=
      token_overlap (tokenize insight.content) (tokenize prev.content)
    if overlap < 3/20 then none
    else
      some
        { sourceId :=
            if !(hasCausalSignal insight.content) &&
                hasCausalSignal prev.content
            then insight.id else prev.id,
          targetId :=
            if !(hasCausalSignal insight.content) &&
                hasCausalSignal prev.content
            then prev.id else insight.id,
          edgeType := "causal", weight := overlap,
          metadata :=
            [("overlap", formatFloat4 overlap),
             ("sub_type",
              suggest_sub_type (insight.content ++ " " ++ prev.content))],
          createdAt := now }

/-- `create_causal_edges` from `graph/causal.py`, as the list of edges
inserted for the new insight against the recent active insights. -/
def createCausalEdges (insight : Insight) (recent : List Insight)
    (now : ℤ) : List Edge :=
  if recent = [] then []
  else if tokenize insight.content = ∅ then []
  else recent.filterMap (causalEdgeFor insight now)

/-- Any edge emitted by `causalEdgeFor` is causal and runs between the
candidate and the new insight, oriented so that the text carrying the
causal signal is the effect. -/
theorem causalEdgeFor_some (insight : Insight) (now : ℤ) (prev : Insight)
    (e : Edge) (h : causalEdgeFor insight now prev = some e) :
    e.edgeType = "causal" ∧
      ((e.sourceId = prev.id ∧ e.targetId = insight.id) ∨
        (e.sourceId = insight.id ∧ e.targetId = prev.id)) := by
  unfold causalEdgeFor at h
  split at h
  · exact absurd h (by simp)
  · dsimp only at h
    split at h
    · exact absurd h (by simp)
    · rw [Option.some_inj] at h
      subst h
      refine ⟨rfl, ?_⟩
      by_cases hc : (!(hasCausalSignal insight.content) &&
          hasCausalSignal prev.content) = true
      · simp [hc]
      · simp [hc]

/-- Candidates whose id differs from the pair's ids contribute no edge
touching `pid`. -/
theorem causal_filter_nil (insight : Insight) (now : ℤ) (pid : String)
    (hpin : insight.id ≠ pid) :
    ∀ l : List Insight, (∀ p ∈ l, p.id ≠ pid) →
      (l.filterMap (causalEdgeFor insight now)).filter
        (fun e => e.sourceId == pid || e.targetId == pid) = [] := by
  intro l
  induction l with
  | nil => simp
  | cons p rest ih =>
    intro hl
    rw [List.filterMap_cons]
    cases hfe : causalEdgeFor insight now p with
    | none => exact ih (fun q hq => hl q (List.mem_cons_of_mem _ hq))
    | some e =>
      have hends := causalEdgeFor_some insight now p e hfe
      have hpne : p.id ≠ pid := hl p (List.mem_cons_self _ _)
      rw [List.filter_cons, if_neg ?hcond]
      case hcond =>
        rcases hends.2 with ⟨h1, h2⟩ | ⟨h1, h2⟩ <;> simp [h1, h2, hpne, hpin]
      exact ih (fun q hq => hl q (List.mem_cons_of_mem _ hq))

/-- Filtering the generated causal edges down to those touching the
accepted candidate yields exactly the one expected edge. -/
theorem causal_filter_pair (insight : Insight) (now : ℤ) (prev : Insight)
    (expectedE : Edge)
    (hexp : causalEdgeFor insight now prev = some expectedE)
    (htouch : (expectedE.sourceId == prev.id ||
      expectedE.targetId == prev.id) = true)
    (hpin : insight.id ≠ prev.id) :
    ∀ l : List Insight, prev ∈ l → (l.map Insight.id).Nodup →
      (l.filterMap (causalEdgeFor insight now)).filter
        (fun e => e.sourceId == prev.id || e.targetId == prev.id) =
        [expectedE] := by
  intro l
  induction l with
  | nil => intro hmem; exact absurd hmem (List.not_mem_nil _)
  | cons p rest ih =>
    intro hmem hnd
    rw [List.map_cons, List.nodup_cons] at hnd
    rcases List.mem_cons.mp hmem with rfl | hmem'
    · rw [List.filterMap_cons, hexp, List.filter_cons, if_pos htouch]
      have hrest : (rest.filterMap (causalEdgeFor insight now)).filter
          (fun e => e.sourceId == prev.id || e.targetId == prev.id) = [] := by
        apply causal_filter_nil insight now prev.id hpin rest
        intro q hq hqe
        exact hnd.1 (hqe ▸ List.mem_map_of_mem Insight.id hq)
      rw [hrest]
    · have hpne : p.id ≠ prev.id := by
        intro hqe
        exact hnd.1 (hqe ▸ List.mem_map_of_mem Insight.id hmem')
      rw [List.filterMap_cons]
      cases hfe : causalEdgeFor insight now p with
      | none => exact ih hmem' hnd.2
      | some e =>
        have hends := causalEdgeFor_some insight now p e hfe
        rw [List.filter_cons, if_neg ?hcond]
        case hcond =>
          rcases hends.2 with ⟨h1, h2⟩ | ⟨h1, h2⟩ <;>
            simp [h1, h2, hpne, hpin]
        exact ih hmem' hnd.2

/-- C4 (confirmed): for every accepted pair (token overlap at least
`0.15` and a causal signal in at least one of the two texts) the
generator stores exactly one directed causal edge between the new
insight and the candidate — weight equal to the overlap ratio, oriented
cause → effect with the signal-carrying text as effect (when only the
older text has the signal the new insight is the cause) — and no
mirrored reverse row. -/
theorem c4_causal_edges (insight : Insight) (recent : List Insight)
    (now : ℤ) (prev : Insight) (hmem : prev ∈ recent)
    (hids : (recent.map Insight.id).Nodup)
    (hne : ∀ p ∈ recent, p.id ≠ insight.id)
    (hsig : (hasCausalSignal insight.content ||
      hasCausalSignal prev.content) = true)
    (hov : 3/20 ≤ token_overlap (tokenize insight.content)
      (tokenize prev.content)) :
    (createCausalEdges insight recent now).filter
        (fun e => e.sourceId == prev.id || e.targetId == prev.id) =
      [{ sourceId :=
           if hasCausalSignal insight.content then prev.id else insight.id,
         targetId :=
           if hasCausalSignal insight.content then insight.id else prev.id,
         edgeType := "causal",
         weight := token_overlap (tokenize insight.content)
           (tokenize prev.content),
         metadata :=
           [("overlap", formatFloat4 (token_overlap
              (tokenize insight.content) (tokenize prev.content))),
            ("sub_type",
             suggest_sub_type (insight.content ++ " " ++ prev.content))],
         createdAt := now }] := by
  have hguard2 : tokenize insight.content ≠ ∅ := by
    intro h0
    unfold token_overlap at hov
    rw [if_pos (Or.inl h0)] at hov
    norm_num at hov
  have hpin : insight.id ≠ prev.id := fun h => hne prev hmem h.symm
  have hexp : causalEdgeFor insight now prev = some
      { sourceId :=
          if hasCausalSignal insight.content then prev.id else insight.id,
        targetId :=
          if hasCausalSignal insight.content then insight.id else prev.id,
        edgeType := "causal",
        weight := token_overlap (tokenize insight.content)
          (tokenize prev.content),
        metadata :=
          [("overlap", formatFloat4 (token_overlap
             (tokenize insight.content) (tokenize prev.content))),
           ("sub_type",
            suggest_sub_type (insight.content ++ " " ++ prev.content))],
        createdAt := now } := by
    unfold causalEdgeFor
    cases ha : hasCausalSignal insight.content with
    | true => simp [ha, not_lt.mpr hov]
    | false =>
      rw [ha] at hsig
      simp only [Bool.false_or] at hsig
      simp [ha, hsig, not_lt.mpr hov]
  have htouch : ((if hasCausalSignal insight.content then prev.id
        else insight.id) == prev.id ||
      (if hasCausalSignal insight.content then insight.id else prev.id) ==
        prev.id) = true := by
    cases ha : hasCausalSignal insight.content <;> simp [ha]
  unfold createCausalEdges
  rw [if_neg (List.ne_nil_of_mem hmem), if_neg hguard2]
  exact causal_filter_pair insight now prev _ hexp htouch hpin recent hmem
    hids

/-- C4 witness: a concrete accepted pair — the new text has the signal
`because` and shares 2 of 5 tokens with the candidate — yields exactly
the single edge candidate → new with weight `2/5`. -/
theorem c4_witness :
    (createCausalEdges
        { id := "n1", content := "chose sqlite because simplicity matters",
          category := "decision", importance := 3, tags := [],
          entities := [], source := "user", accessCount := 0,
          createdAt := 10, updatedAt := 10, deletedAt := none,
          lastAccessedAt := none, effectiveImportance := 0 }
        [{ id := "p1", content := "sqlite simplicity wins benchmarks",
           category := "fact", importance := 3, tags := [], entities := [],
           source := "user", accessCount := 0, createdAt := 5,
           updatedAt := 5, deletedAt := none, lastAccessedAt := none,
           effectiveImportance := 0 }] 10).filter
        (fun e => e.sourceId == "p1" || e.targetId == "p1") =
      [{ sourceId := "p1", targetId := "n1", edgeType := "causal",
         weight := 2/5,
         metadata := [("overlap", formatFloat4 (2/5)),
                      ("sub_type", "causes")],
         createdAt := 10 }] := by
  have hval : token_overlap
      (tokenize "chose sqlite because simplicity matters")
      (tokenize "sqlite simplicity wins benchmarks") = 2/5 := by
    unfold token_overlap
    rw [if_neg (by decide),
      show ((tokenize "chose sqlite because simplicity matters" ∩
        tokenize "sqlite simplicity wins benchmarks").card) = 2 from
        by decide,
      show (max (tokenize "chose sqlite because simplicity matters").card
        (tokenize "sqlite simplicity wins benchmarks").card) = 5 from
        by decide]
    norm_num
  have hsig : hasCausalSignal "chose sqlite because simplicity matters" =
      true := by decide
  have hsub : suggest_sub_type ("chose sqlite because simplicity matters"
      ++ " " ++ "sqlite simplicity wins benchmarks") = "causes" := by decide
  have h := c4_causal_edges
    { id := "n1", content := "chose sqlite because simplicity matters",
      category := "decision", importance := 3, tags := [],
      entities := [], source := "user", accessCount := 0,
      createdAt := 10, updatedAt := 10, deletedAt := none,
      lastAccessedAt := none, effectiveImportance := 0 }
    [{ id := "p1", content := "sqlite simplicity wins benchmarks",
       category := "fact", importance := 3, tags := [], entities := [],
       source := "user", accessCount := 0, createdAt := 5,
       updatedAt := 5, deletedAt := none, lastAccessedAt := none,
       effectiveImportance := 0 }] 10
    { id := "p1", content := "sqlite simplicity wins benchmarks",
      category := "fact", importance := 3, tags := [], entities := [],
      source := "user", accessCount := 0, createdAt := 5,
      updatedAt := 5, deletedAt := none, lastAccessedAt := none,
      effectiveImportance := 0 }
    (by decide) (by decide) (by decide) (by decide)
    (by dsimp only; rw [hval]; norm_num)
  rw [h]
  dsimp only
  rw [hval, hsig, hsub]
  rfl

/-- The SQLite store: the `insights` table in rowid (insertion) order
and the `edges` table. -/
structure Store where
  insights : List Insight
  edges : List Edge
deriving Repr

/-- `count_active_insights` from `store/node.py`:
`COUNT(*) WHERE deleted_at IS NULL`. -/
def countActive (s : Store) : ℕ :=
  s.insights.countP (fun i => i.deletedAt.isNone)

/-- Two edge rows share the `(source_id, target_id, edge_type)` primary
key. -/
def sameKey (x e : Edge) : Bool :=
  x.sourceId == e.sourceId && x.targetId == e.targetId &&
    x.edgeType == e.edgeType

/-- `insert_edge` from `store/edge.py`: `INSERT OR REPLACE` on the edge
primary key. -/
def insertEdgeStore (s : Store) (e : Edge) : Store :=
  { s with edges := s.edges.filter (fun x => !(sameKey x e)) ++ [e] }

/-- Insert a generated edge list in order. -/
def applyEdges (s : Store) (es : List Edge) : Store :=
  es.foldl insertEdgeStore s

/-- `delete_edges_by_node` from `store/edge.py`. -/
def delete_edges_by_node (s : Store) (nodeId : String) : Store :=
  { s with edges := s.edges.filter (fun e =>
      !(e.sourceId == nodeId || e.targetId == nodeId)) }

/-- `get_insight_by_id` from `store/node.py` (excludes soft-deleted). -/
def get_insight_by_id (s : Store) (id : String) : Option Insight :=
  s.insights.find? (fun i => i.id == id && i.deletedAt.isNone)

/-- `get_edges_by_node` from `store/edge.py`: `UNION ALL` of the rows
with the node as source and the rows with it as target (distinct
source). -/
def get_edges_by_node (s : Store) (nodeId : String) : List Edge :=
  s.edges.filter (fun e => e.sourceId == nodeId) ++
    s.edges.filter (fun e => e.targetId == nodeId && e.sourceId != nodeId)

/-- The `UPDATE insights SET deleted_at, updated_at WHERE id = ? AND
deleted_at IS NULL` statement shared by `soft_delete_insight` and
`auto_prune`. -/
def markDeleted (s : Store) (id : String) (now : ℤ) : Store :=
  { s with insights := s.insights.map (fun i =>
      if i.id == id && i.deletedAt.isNone
      then { i with deletedAt := some now, updatedAt := now } else i) }

/-- `soft_delete_insight` from `store/node.py`: the update matches only
active rows; a zero rowcount raises, otherwise all edges referencing the
node are removed in the same call. -/
def soft_delete_insight (s : Store) (id : String) (now : ℤ) :
    Except String Store :=
  if s.insights.countP (fun i => i.id == id && i.deletedAt.isNone) = 0
  then .error ("insight " ++ id ++ " not found or already deleted")
  else .ok (delete_edges_by_node (markDeleted s id now) id)

/-- `insert_insight` from `store/node.py` (a new rowid at the end). -/
def insert_insight (s : Store) (i : Insight) : Store :=
  { s with insights := s.insights ++ [i] }

/-- The final `UPDATE insights SET effective_importance WHERE id` of
`refresh_effective_importance` in `store/node.py`. -/
def setEffectiveImportance (s : Store) (id : String) (v : ℚ) : Store :=
  { s with insights := s.insights.map (fun i =>
      if i.id == id then { i with effectiveImportance := v } else i) }

/-- `MAX_INSIGHTS` from `store/node.py`. -/
def MAX_INSIGHTS : ℕ := 1000

/-- `PRUNE_BATCH_SIZE` from `store/node.py`. -/
def PRUNE_BATCH_SIZE : ℕ := 10

/-- Ascending insertion by `effective_importance`. -/
def insertByEI (i : Insight) : List Insight → List Insight
  | [] => [i]
  | j :: rest =>
    if i.effectiveImportance ≤ j.effectiveImportance then i :: j :: rest
    else j :: insertByEI i rest

/-- `ORDER BY effective_importance ASC` (ties left in an unspecified
order by SQLite; the model uses insertion sort). -/
def sortByEI : List Insight → List Insight
  | [] => []
  | i :: rest => insertByEI i (sortByEI rest)

/-- One iteration of the prune loop in `auto_prune`: soft-delete the
candidate if its row is still active (`rowcount > 0`), then cascade its
edges and count it. -/
def pruneFold (now : ℤ) (acc : Store × ℕ) (cid : String) : Store × ℕ :=
  if acc.1.insights.countP
      (fun i => i.id == cid && i.deletedAt.isNone) = 0 then acc
  else (delete_edges_by_node (markDeleted acc.1 cid now) cid, acc.2 + 1)

/-- `auto_prune` from `store/node.py`: no-op at or under capacity,
otherwise soft-delete up to `min(total - max, PRUNE_BATCH_SIZE)`
non-immune (`importance < 4 AND access_count < 3`), non-excluded active
insights with the lowest effective importance, cascading each one's
edges. -/
def auto_prune (s : Store) (maxInsights : ℕ) (excludeIds : List String)
    (now : ℤ) : Store × ℕ :=
  if countActive s ≤ maxInsights then (s, 0)
  else
    (((sortByEI (s.insights.filter (fun i =>
        i.deletedAt.isNone && decide (i.importance < 4) &&
        decide (i.accessCount < 3) &&
        !(excludeIds.contains i.id)))).take
          (min (countActive s - maxInsights) PRUNE_BATCH_SIZE)).map
        Insight.id).foldl (pruneFold now) (s, 0)

/-- The `try: soft_delete_insight(db, replaced_id) ... except` step at
the head of `tx_body` in `cli.py` (failures are reported and ignored). -/
def tryReplaceDelete (s : Store) (replacedId : Option String) (now : ℤ) :
    Store :=
  match replacedId with
  | none => s
  | some rid =>
    match soft_delete_insight s rid now with
    | .ok s' => s'
    | .error _ => s

/-- The remember transaction `tx_body` from `cli.py`, restricted to the
steps that touch insight rows and edges: the optional soft-delete of a
replaced insight, `insert_insight`, the edge inserts of
`on_insight_created` (abstracted as the generated edge list), the final
effective-importance update of `refresh_effective_importance`, then
`auto_prune(db, MAX_INSIGHTS, [insight.id])`.  `update_embedding`,
`update_entities` and `log_op` change no insight row's `deleted_at` and
no edge row, and are omitted. -/
def tx_body (s : Store) (i : Insight) (replacedId : Option String)
    (genEdges : List Edge) (eiVal : ℚ) (now : ℤ) : Store × ℕ :=
  auto_prune
    (setEffectiveImportance
      (applyEdges (insert_insight (tryReplaceDelete s replacedId now) i)
        genEdges)
      i.id eiVal)
    MAX_INSIGHTS [i.id] now

/-! ### Claims C1, C3, C4, C6, C7, C8, C9, C10 -/

/-- C8 (confirmed): soft-deleting an id with an active row succeeds,
after which the active-only fetch returns nothing and the edge listing
for that id is empty; soft-deleting a missing or already-deleted id
fails with the not-found error (the zero-rowcount update leaves the
store unchanged). -/
theorem c8_soft_delete (s : Store) (id : String) (now : ℤ) :
    ((∃ i ∈ s.insights, i.id = id ∧ i.deletedAt = none) →
      ∃ s', soft_delete_insight s id now = .ok s' ∧
        get_insight_by_id s' id = none ∧
        get_edges_by_node s' id = []) ∧
    ((∀ i ∈ s.insights, i.id = id → i.deletedAt ≠ none) →
      soft_delete_insight s id now =
        .error ("insight " ++ id ++ " not found or already deleted")) := by
  constructor
  · rintro ⟨i, hi, hid, hdel⟩
    have hcount : ¬ s.insights.countP
        (fun j => j.id == id && j.deletedAt.isNone) = 0 := by
      intro h0
      have := (List.countP_eq_zero.mp h0) i hi
      simp [hid, hdel] at this
    refine ⟨_, by unfold soft_delete_insight; rw [if_neg hcount], ?_, ?_⟩
    · unfold get_insight_by_id delete_edges_by_node markDeleted
      apply List.find?_eq_none.mpr
      intro j hj
      simp only [List.mem_map] at hj
      obtain ⟨k, _, hk⟩ := hj
      by_cases hcase : (k.id == id && k.deletedAt.isNone) = true
      · rw [if_pos hcase] at hk
        subst hk
        simp
      · rw [if_neg hcase] at hk
        subst hk
        intro hcontra
        exact hcase hcontra
    · unfold get_edges_by_node delete_edges_by_node markDeleted
      dsimp only
      have h1 : ∀ (l : List Edge),
          ((l.filter (fun e =>
            !(e.sourceId == id || e.targetId == id))).filter
              (fun e => e.sourceId == id)) = [] := by
        intro l
        apply List.filter_eq_nil_iff.mpr
        intro e he hc
        have := List.of_mem_filter he
        simp [hc] at this
      have h2 : ∀ (l : List Edge),
          ((l.filter (fun e =>
            !(e.sourceId == id || e.targetId == id))).filter
              (fun e => e.targetId == id && e.sourceId != id)) = [] := by
        intro l
        apply List.filter_eq_nil_iff.mpr
        intro e he hc
        have := List.of_mem_filter he
        simp at hc this
        simp [hc.1] at this
      rw [h1 s.edges, h2 s.edges]
      rfl
  · intro hnone
    have hcount : s.insights.countP
        (fun j => j.id == id && j.deletedAt.isNone) = 0 := by
      apply List.countP_eq_zero.mpr
      intro j hj
      by_cases hid : j.id = id
      · have := hnone j hj hid
        simp only [Bool.and_eq_true, beq_iff_eq, Option.isNone_iff_eq_none]
        rintro ⟨-, h⟩
        exact this h
      · simp [hid]
    unfold soft_delete_insight
    rw [if_pos hcount]

/-- Sample active insight used by concrete store witnesses. -/
def sampleInsight1 : Insight :=
  { id := "i1", content := "a", category := "general", importance := 3,
    tags := [], entities := [], source := "user", accessCount := 0,
    createdAt := 0, updatedAt := 0, deletedAt := none,
    lastAccessedAt := none, effectiveImportance := 0 }

/-- A one-insight store with one outgoing edge. -/
def c8StoreA : Store :=
  { insights := [sampleInsight1],
    edges := [{ sourceId := "i1", targetId := "i2", edgeType := "semantic",
                weight := 1, metadata := [], createdAt := 0 }] }

/-- A one-insight store with no edges. -/
def c8StoreB : Store :=
  { insights := [sampleInsight1], edges := [] }

/-- C8 witness. -/
theorem c8_witness :
    (∃ s', soft_delete_insight c8StoreA "i1" 5 = .ok s' ∧
        get_insight_by_id s' "i1" = none ∧
        get_edges_by_node s' "i1" = []) ∧
      soft_delete_insight c8StoreB "zz" 5 =
        .error ("insight " ++ "zz" ++ " not found or already deleted") :=
  ⟨(c8_soft_delete c8StoreA "i1" 5).1
    ⟨sampleInsight1, List.mem_singleton.mpr rfl, rfl, rfl⟩,
   (c8_soft_delete c8StoreB "zz" 5).2 (by
     intro i hi hid
     simp only [c8StoreB, List.mem_singleton] at hi
     subst hi
     exact absurd hid (by decide))⟩

/-- C10 (confirmed): when the query tokenizes to the empty set the
search returns the empty list immediately, leaving the optional token
cache exactly as it was passed in (no document is visited). -/
theorem c10_keyword_search_empty_query (insights : List Insight)
    (query : String) (limit : ℤ)
    (tokenCache : Option (List (String × Finset String)))
    (h : tokenize query = ∅) :
    keyword_search insights query limit tokenCache = ([], tokenCache) := by
  unfold keyword_search
  rw [if_pos h]

/-- C10 witness. -/
theorem c10_witness :
    keyword_search
        [{ id := "i1", content := "prefers sqlite", category := "general",
           importance := 3, tags := [], entities := [], source := "user",
           accessCount := 0, createdAt := 0, updatedAt := 0,
           deletedAt := none, lastAccessedAt := none,
           effectiveImportance := 0 }]
        "the and of !!" 5 (some []) = ([], some []) :=
  c10_keyword_search_empty_query _ "the and of !!" 5 (some []) (by decide)

/-- Concatenating the 8-byte groups of a blob whose length is `8 * n`
recovers the blob. -/
theorem chunksOfCount_concat :
    ∀ (n : ℕ) (b : List ℕ), b.length = 8 * n →
      (chunksOfCount n b).foldr (· ++ ·) [] = b := by
  intro n
  induction n with
  | zero =>
    intro b hb
    have : b = [] := List.eq_nil_of_length_eq_zero (by omega)
    simp [this, chunksOfCount]
  | succ m ih =>
    intro b hb
    have hdrop : (b.drop 8).length = 8 * m := by
      simp [List.length_drop]; omega
    simp only [chunksOfCount, List.foldr_cons]
    rw [ih (b.drop 8) hdrop, List.take_append_drop]

/-- C9 (corrected): deserialization succeeds exactly on nonempty blobs
whose length is a multiple of eight, and serialization is its left
inverse there; the empty blob and ill-sized blobs decode to nothing. -/
theorem c9_vector_roundtrip (b : List ℕ) :
    (b ≠ [] → b.length % 8 = 0 →
      deserialize_vector b = some (chunksOfCount (b.length / 8) b) ∧
      serialize_vector (chunksOfCount (b.length / 8) b) = b) ∧
    (b.length % 8 ≠ 0 → deserialize_vector b = none) ∧
    deserialize_vector [] = none := by
  refine ⟨?_, ?_, by simp [deserialize_vector]⟩
  · intro hne hmod
    have hlen : 8 * (b.length / 8) = b.length :=
      Nat.mul_div_cancel' (Nat.dvd_of_mod_eq_zero hmod)
    constructor
    · unfold deserialize_vector
      rw [if_neg hne, if_neg (by omega)]
    · have hpos : 1 ≤ b.length / 8 := by
        have : b.length ≠ 0 := fun h => hne (List.eq_nil_of_length_eq_zero h)
        omega
      obtain ⟨k, hk⟩ : ∃ k, b.length / 8 = k + 1 :=
        ⟨b.length / 8 - 1, by omega⟩
      unfold serialize_vector
      rw [if_neg (by rw [hk]; simp [chunksOfCount])]
      exact chunksOfCount_concat _ b (by omega)
  · intro hmod
    unfold deserialize_vector
    by_cases hb : b = []
    · subst hb; simp at hmod
    · rw [if_neg hb, if_pos hmod]

/-- C9 counterexample: the empty blob has length `0`, a multiple of
eight, yet `deserialize_vector` fails on it, refuting "succeeds on every
blob whose length is a multiple of eight". -/
theorem c9_counterexample :
    (List.length ([] : List ℕ)) % 8 = 0 ∧
      deserialize_vector ([] : List ℕ) = none := by
  exact ⟨rfl, rfl⟩

/-- C1 (corrected): `ADD` below similarity `0.5`; `CONFLICT` whenever
similarity is at least `0.5` and a negation phrase occurs in either text
(including above `0.9`); `DUPLICATE` only above `0.9` without negation;
`UPDATE` in `[0.5, 0.9]` without negation. -/
theorem c1_classify_suggestion (sim : ℚ) (a b : String) :
    (sim < 1/2 → classify_suggestion sim a b = "ADD") ∧
    (1/2 ≤ sim → (hasNegation a || hasNegation b) = true →
      classify_suggestion sim a b = "CONFLICT") ∧
    (9/10 < sim → (hasNegation a || hasNegation b) = false →
      classify_suggestion sim a b = "DUPLICATE") ∧
    (1/2 ≤ sim → sim ≤ 9/10 → (hasNegation a || hasNegation b) = false →
      classify_suggestion sim a b = "UPDATE") := by
  unfold classify_suggestion
  refine ⟨fun h => by rw [if_pos h], fun h hneg => ?_, fun h hneg => ?_,
    fun h1 h2 hneg => ?_⟩
  · rw [if_neg (by linarith), if_pos hneg]
  · rw [if_neg (by linarith), hneg, if_neg (by simp), if_pos h]
  · rw [if_neg (by linarith), hneg, if_neg (by simp), if_neg (by linarith)]

/-- C1 counterexample: at similarity `0.95` with a negation phrase in the
new text the code returns `CONFLICT`, not the `DUPLICATE` the claim
demands for every similarity above `0.9`. -/
theorem c1_counterexample :
    (9/10 : ℚ) < 0.95 ∧
      classify_suggestion 0.95 "do not use redis" "use redis for caching" =
        "CONFLICT" ∧
      classify_suggestion 0.95 "do not use redis" "use redis for caching" ≠
        "DUPLICATE" := by
  have hneg : (hasNegation "do not use redis" ||
      hasNegation "use redis for caching") = true := by decide
  have hc : classify_suggestion 0.95 "do not use redis"
      "use redis for caching" = "CONFLICT" := by
    unfold classify_suggestion
    rw [if_neg (by norm_num), if_pos hneg]
  exact ⟨by norm_num, hc, by rw [hc]; decide⟩

/-- C1 witness. -/
theorem c1_witness :
    classify_suggestion 0.3 "x" "y" = "ADD" ∧
      classify_suggestion 0.7 "no longer uses flask" "uses flask" =
        "CONFLICT" ∧
      classify_suggestion 0.95 "uses flask" "uses flask today" =
        "DUPLICATE" ∧
      classify_suggestion 0.7 "uses flask" "uses flask today" = "UPDATE" :=
  ⟨(c1_classify_suggestion 0.3 "x" "y").1 (by norm_num),
   (c1_classify_suggestion 0.7 "no longer uses flask" "uses flask").2.1
     (by norm_num) (by decide),
   (c1_classify_suggestion 0.95 "uses flask" "uses flask today").2.2.1
     (by norm_num) (by decide),
   (c1_classify_suggestion 0.7 "uses flask" "uses flask today").2.2.2
     (by norm_num) (by norm_num) (by decide)⟩

/-- C3 (corrected): all-zero keyword counts fall through to `GENERAL`,
and so do ties whose ENTITY count is zero; but any query whose ENTITY
count is positive while neither WHY nor WHEN is a strict maximum — in
particular every tie involving a positive ENTITY count — detects as
`ENTITY`, not `GENERAL`. -/
theorem c3_detect_intent (q : List String) :
    (whyScore (q.map lowerStr) = 0 → whenScore (q.map lowerStr) = 0 →
      entityScore (q.map lowerStr) = 0 → detect_intent q = "GENERAL") ∧
    (tieAtMax (whyScore (q.map lowerStr)) (whenScore (q.map lowerStr))
        (entityScore (q.map lowerStr)) →
      entityScore (q.map lowerStr) = 0 → detect_intent q = "GENERAL") ∧
    (tieAtMax (whyScore (q.map lowerStr)) (whenScore (q.map lowerStr))
        (entityScore (q.map lowerStr)) →
      0 < entityScore (q.map lowerStr) → detect_intent q = "ENTITY") := by
  unfold detect_intent
  refine ⟨fun h1 h2 h3 => ?_, fun htie he => ?_, fun htie he => ?_⟩
  · rw [if_neg (by omega), if_neg (by omega), if_neg (by omega)]
  · unfold tieAtMax at htie
    rcases htie with ⟨h1, h2⟩ | ⟨h1, h2⟩ | ⟨h1, h2⟩ <;>
      rw [if_neg (by omega), if_neg (by omega), if_neg (by omega)]
  · unfold tieAtMax at htie
    rcases htie with ⟨h1, h2⟩ | ⟨h1, h2⟩ | ⟨h1, h2⟩ <;>
      rw [if_neg (by omega), if_neg (by omega), if_pos (by omega)]

/-- C3 counterexample: in the query `why about` the WHY and ENTITY counts
tie at the maximum `1`, yet the detected intent is `ENTITY`, not the
`GENERAL` the claim demands for every tie. -/
theorem c3_counterexample :
    whyScore (["why", "about"].map lowerStr) = 1 ∧
      whenScore (["why", "about"].map lowerStr) = 0 ∧
      entityScore (["why", "about"].map lowerStr) = 1 ∧
      detect_intent ["why", "about"] = "ENTITY" := by
  refine ⟨?_, ?_, ?_, ?_⟩ <;> decide

/-- C3 witness. -/
theorem c3_witness :
    detect_intent ["hello", "world"] = "GENERAL" ∧
      detect_intent ["why", "when"] = "GENERAL" ∧
      detect_intent ["cause", "describe"] = "ENTITY" :=
  ⟨(c3_detect_intent ["hello", "world"]).1 (by decide) (by decide) (by decide),
   (c3_detect_intent ["why", "when"]).2.1 (by decide) (by decide),
   (c3_detect_intent ["cause", "describe"]).2.2 (by decide) (by decide)⟩

/-- C6 (corrected): `content_similarity` is symmetric; the empty string
scores `0` against everything; and `content_similarity x x = 1` holds for
texts with a nonempty token set, while a text tokenizing to the empty set
(stopwords or punctuation only) scores `0` against itself. -/
theorem c6_content_similarity :
    (∀ a b, content_similarity a b = content_similarity b a) ∧
    (∀ y, content_similarity "" y = 0) ∧
    (∀ x, tokenize x ≠ ∅ → content_similarity x x = 1) := by
  refine ⟨fun a b => ?_, fun y => ?_, fun x hx => ?_⟩
  · unfold content_similarity
    by_cases h : tokenize a = ∅ ∨ tokenize b = ∅
    · rw [if_pos h, if_pos (Or.symm h)]
    · rw [if_neg h, if_neg (fun hc => h (Or.symm hc))]
      rw [Finset.inter_comm]
      exact max_comm _ _
  · unfold content_similarity
    rw [if_pos (Or.inl (by decide))]
  · unfold content_similarity
    rw [if_neg (by tauto), Finset.inter_self]
    have hpos : 0 < (tokenize x).card :=
      Finset.card_pos.mpr (Finset.nonempty_iff_ne_empty.mpr hx)
    have hc : ((tokenize x).card : ℚ) ≠ 0 := by exact_mod_cast hpos.ne'
    rw [div_self hc, max_self]

/-- C6 counterexample: the stopword `the` tokenizes to the empty set, so
`content_similarity "the" "the" = 0`, refuting the unconditional
`content_similarity(x, x) = 1.0`. -/
theorem c6_counterexample :
    content_similarity "the" "the" = 0 ∧ content_similarity "the" "the" ≠ 1 := by
  refine ⟨?_, ?_⟩ <;> decide

/-- C6 witness. -/
theorem c6_witness :
    content_similarity "alpha beta" "alpha beta" = 1 ∧
      content_similarity "x1 y2" "z3" = content_similarity "z3" "x1 y2" :=
  ⟨c6_content_similarity.2.2 "alpha beta" (by decide),
   c6_content_similarity.1 "x1 y2" "z3"⟩

/-- `entity_idf_weight` is nonnegative in every branch. -/
theorem entity_idf_weight_nonneg (d n : ℤ) : 0 ≤ entity_idf_weight d n := by
  unfold entity_idf_weight
  split
  · exact le_refl 0
  · split
    · exact zero_le_one
    · exact le_trans (by norm_num) (le_max_right _ _)

/-- C7 (corrected): the IDF weight equals `max(ln(n/d)/ln n, 0.1)` for
`0 < d < n`, is `0` for `d ≥ n`, exceeds `0.9` for `d ≤ 0` only when the
corpus has at least two documents (a corpus of size ≤ 1 hits the
leading `total_docs ≤ 1` branch and yields `0`), and is monotonically
non-increasing in `d` for every fixed `n`. -/
theorem c7_entity_idf_weight :
    (∀ d n : ℤ, 0 < d → d < n →
      entity_idf_weight d n =
        max (Real.log ((n : ℝ) / (d : ℝ)) / Real.log (n : ℝ)) (1/10)) ∧
    (∀ d n : ℤ, n ≤ d → entity_idf_weight d n = 0) ∧
    (∀ d n : ℤ, d ≤ 0 → 2 ≤ n → (9/10 : ℝ) < entity_idf_weight d n) ∧
    (∀ n d d' : ℤ, d ≤ d' → entity_idf_weight d' n ≤ entity_idf_weight d n) := by
  refine ⟨fun d n hd hdn => ?_, fun d n hnd => ?_, fun d n hd hn => ?_,
    fun n d d' hdd' => ?_⟩
  · unfold entity_idf_weight
    rw [if_neg (by omega), if_neg (by omega)]
  · unfold entity_idf_weight
    rw [if_pos (Or.inr hnd)]
  · unfold entity_idf_weight
    rw [if_neg (by omega), if_pos hd]
    norm_num
  · by_cases hn : n ≤ 1
    · unfold entity_idf_weight
      rw [if_pos (Or.inl hn), if_pos (Or.inl hn)]
    · push_neg at hn
      by_cases hdn' : n ≤ d'
      · have h0 : entity_idf_weight d' n = 0 := by
          unfold entity_idf_weight
          rw [if_pos (Or.inr hdn')]
        rw [h0]
        exact entity_idf_weight_nonneg d n
      · push_neg at hdn'
        have hdn : d < n := lt_of_le_of_lt hdd' hdn'
        have hnpos : (0 : ℝ) < (n : ℝ) := by exact_mod_cast by omega
        have hlogn : 0 < Real.log (n : ℝ) := by
          apply Real.log_pos
          exact_mod_cast by omega
        by_cases hd'0 : d' ≤ 0
        · have hL : entity_idf_weight d' n = 1 := by
            unfold entity_idf_weight
            rw [if_neg (by omega), if_pos hd'0]
          have hR : entity_idf_weight d n = 1 := by
            unfold entity_idf_weight
            rw [if_neg (by omega), if_pos (by omega)]
          rw [hL, hR]
        · push_neg at hd'0
          have hd'r : (0 : ℝ) < (d' : ℝ) := by exact_mod_cast hd'0
          have hargpos : (0 : ℝ) < (n : ℝ) / (d' : ℝ) := div_pos hnpos hd'r
          have hL : entity_idf_weight d' n =
              max (Real.log ((n : ℝ) / (d' : ℝ)) / Real.log (n : ℝ))
                (1/10) := by
            unfold entity_idf_weight
            rw [if_neg (by omega), if_neg (by omega)]
          by_cases hd0 : d ≤ 0
          · have hR : entity_idf_weight d n = 1 := by
              unfold entity_idf_weight
              rw [if_neg (by omega), if_pos hd0]
            rw [hL, hR]
            apply max_le _ (by norm_num)
            rw [div_le_one hlogn]
            apply Real.log_le_log hargpos
            apply div_le_self (le_of_lt hnpos)
            exact_mod_cast hd'0
          · push_neg at hd0
            have hdr : (0 : ℝ) < (d : ℝ) := by exact_mod_cast hd0
            have hR : entity_idf_weight d n =
                max (Real.log ((n : ℝ) / (d : ℝ)) / Real.log (n : ℝ))
                  (1/10) := by
              unfold entity_idf_weight
              rw [if_neg (by omega), if_neg (by omega)]
            rw [hL, hR]
            apply max_le_max _ (le_refl _)
            apply div_le_div_of_nonneg_right _ hlogn.le
            apply Real.log_le_log hargpos
            apply div_le_div_of_nonneg_left (le_of_lt hnpos) hdr
            exact_mod_cast hdd'

/-- C7 counterexample: a corpus of a single document gives weight `0`
even for a brand-new entity (`d = 0`), refuting "greater than 0.9 for
every corpus size when d ≤ 0". -/
theorem c7_counterexample :
    entity_idf_weight 0 1 = 0 ∧ ¬ ((9/10 : ℝ) < entity_idf_weight 0 1) := by
  have h : entity_idf_weight 0 1 = 0 := by
    unfold entity_idf_weight
    rw [if_pos (Or.inl le_rfl)]
  exact ⟨h, by rw [h]; norm_num⟩

/-- C7 witness. -/
theorem c7_witness :
    entity_idf_weight 100 100 = 0 ∧
      (9/10 : ℝ) < entity_idf_weight 0 100 ∧
      entity_idf_weight 50 100 ≤ entity_idf_weight 2 100 :=
  ⟨c7_entity_idf_weight.2.1 100 100 le_rfl,
   c7_entity_idf_weight.2.2.1 0 100 le_rfl (by norm_num),
   c7_entity_idf_weight.2.2.2 100 2 50 (by norm_num)⟩

/-- C9 witness. -/
theorem c9_witness :
    deserialize_vector [0, 1, 2, 3, 4, 5, 6, 7] =
        some [[0, 1, 2, 3, 4, 5, 6, 7]] ∧
      serialize_vector [[0, 1, 2, 3, 4, 5, 6, 7]] = [0, 1, 2, 3, 4, 5, 6, 7] ∧
      deserialize_vector [1, 2, 3] = none :=
  ⟨((c9_vector_roundtrip [0, 1, 2, 3, 4, 5, 6, 7]).1 (by decide) (by decide)).1,
   ((c9_vector_roundtrip [0, 1, 2, 3, 4, 5, 6, 7]).1 (by decide) (by decide)).2,
   (c9_vector_roundtrip [1, 2, 3]).2.1 (by decide)⟩

/-! ### Claim C2: capacity after a write -/

/-- Edge insertion never touches the insights table. -/
theorem applyEdges_insights (es : List Edge) :
    ∀ s : Store, (applyEdges s es).insights = s.insights := by
  induction es with
  | nil => intro s; rfl
  | cons e rest ih =>
    intro s
    show (applyEdges (insertEdgeStore s e) rest).insights = s.insights
    rw [ih]
    rfl

/-- Inserting an active insight raises the active count by one. -/
theorem countActive_insert (s : Store) (i : Insight)
    (h : i.deletedAt = none) :
    countActive (insert_insight s i) = countActive s + 1 := by
  unfold countActive insert_insight
  rw [List.countP_append]
  simp [h]

/-- The effective-importance update leaves the active count alone. -/
theorem countActive_setEI (s : Store) (id : String) (v : ℚ) :
    countActive (setEffectiveImportance s id v) = countActive s := by
  unfold countActive setEffectiveImportance
  rw [List.countP_map]
  apply List.countP_congr
  intro i _
  by_cases hc : (i.id == id) = true <;> simp [hc, Function.comp]

/-- Counting identity for the soft-delete update: afterwards the active
count drops by exactly the number of matched active rows. -/
theorem countP_mark (id : String) (now : ℤ) : ∀ l : List Insight,
    (l.map (fun i => if i.id == id && i.deletedAt.isNone
        then { i with deletedAt := some now, updatedAt := now }
        else i)).countP (fun i => i.deletedAt.isNone) =
      l.countP (fun i => i.deletedAt.isNone) -
        l.countP (fun i => i.id == id && i.deletedAt.isNone) := by
  intro l
  induction l with
  | nil => rfl
  | cons j rest ih =>
    have hmono : rest.countP (fun i => i.id == id && i.deletedAt.isNone) ≤
        rest.countP (fun i => i.deletedAt.isNone) := by
      apply List.countP_mono_left
      intro a _ ha
      exact ((Bool.and_eq_true _ _).mp ha).2
    rw [List.map_cons, List.countP_cons, List.countP_cons,
      List.countP_cons, ih]
    by_cases hc : (j.id == id && j.deletedAt.isNone) = true
    · have hparts := (Bool.and_eq_true _ _).mp hc
      rw [if_pos hc]
      simp only [hparts.1, hparts.2, Option.isNone_some, Bool.and_self,
        Bool.false_eq_true, if_true, if_false]
      omega
    · have hc' : (j.id == id && j.deletedAt.isNone) = false :=
        Bool.eq_false_iff.mpr hc
      rw [if_neg hc]
      simp only [hc', Bool.false_eq_true, if_false]
      by_cases hj : j.deletedAt.isNone = true
      · simp only [hj, if_true]
        omega
      · simp only [Bool.eq_false_iff.mpr hj, Bool.false_eq_true, if_false]
        omega

/-- `countActive` after `markDeleted`. -/
theorem countActive_markDeleted (s : Store) (id : String) (now : ℤ) :
    countActive (markDeleted s id now) =
      countActive s -
        s.insights.countP (fun i => i.id == id && i.deletedAt.isNone) := by
  unfold countActive markDeleted
  exact countP_mark id now s.insights

/-- Edge deletion never touches the insights table. -/
theorem countActive_deleteEdges (s : Store) (id : String) :
    countActive (delete_edges_by_node s id) = countActive s := rfl

/-- The optional replaced-insight soft-delete either leaves the store
unchanged or strictly lowers the active count. -/
theorem tryReplaceDelete_cases (s : Store) (r : Option String) (now : ℤ) :
    tryReplaceDelete s r now = s ∨
      countActive (tryReplaceDelete s r now) + 1 ≤ countActive s := by
  cases r with
  | none => exact Or.inl rfl
  | some rid =>
    by_cases h0 : s.insights.countP
        (fun i => i.id == rid && i.deletedAt.isNone) = 0
    · left
      show (match soft_delete_insight s rid now with
            | .ok s' => s'
            | .error _ => s) = s
      unfold soft_delete_insight
      rw [if_pos h0]
    · right
      have hok : tryReplaceDelete s (some rid) now =
          delete_edges_by_node (markDeleted s rid now) rid := by
        show (match soft_delete_insight s rid now with
              | .ok s' => s'
              | .error _ => s) = _
        unfold soft_delete_insight
        rw [if_neg h0]
      rw [hok, countActive_deleteEdges, countActive_markDeleted]
      have hmono : s.insights.countP
          (fun i => i.id == rid && i.deletedAt.isNone) ≤
          s.insights.countP (fun i => i.deletedAt.isNone) := by
        apply List.countP_mono_left
        intro a _ ha
        exact ((Bool.and_eq_true _ _).mp ha).2
      unfold countActive
      omega

/-- Membership is preserved from `insertByEI` back to the input. -/
theorem mem_of_mem_insertByEI (x i : Insight) :
    ∀ l : List Insight, x ∈ insertByEI i l → x = i ∨ x ∈ l := by
  intro l
  induction l with
  | nil =>
    intro hx
    simp [insertByEI] at hx
    exact Or.inl hx
  | cons j rest ih =>
    intro hx
    unfold insertByEI at hx
    by_cases hc : i.effectiveImportance ≤ j.effectiveImportance
    · rw [if_pos hc] at hx
      rcases List.mem_cons.mp hx with rfl | hx'
      · exact Or.inl rfl
      · exact Or.inr hx'
    · rw [if_neg hc] at hx
      rcases List.mem_cons.mp hx with rfl | hx'
      · exact Or.inr (List.mem_cons_self _ _)
      · rcases ih hx' with h | h
        · exact Or.inl h
        · exact Or.inr (List.mem_cons_of_mem _ h)

/-- Membership is preserved from the sorted candidate list back to the
input. -/
theorem mem_of_mem_sortByEI (x : Insight) :
    ∀ l : List Insight, x ∈ sortByEI l → x ∈ l := by
  intro l
  induction l with
  | nil => intro hx; simp [sortByEI] at hx
  | cons j rest ih =>
    intro hx
    unfold sortByEI at hx
    rcases mem_of_mem_insertByEI x j _ hx with rfl | hx'
    · exact List.mem_cons_self _ _
    · exact List.mem_cons_of_mem _ (ih hx')

/-- Sorting preserves length. -/
theorem length_insertByEI (i : Insight) :
    ∀ l : List Insight, (insertByEI i l).length = l.length + 1 := by
  intro l
  induction l with
  | nil => rfl
  | cons j rest ih =>
    unfold insertByEI
    by_cases hc : i.effectiveImportance ≤ j.effectiveImportance
    · rw [if_pos hc]
      rfl
    · rw [if_neg hc]
      simp [ih]

/-- Sorting preserves length. -/
theorem length_sortByEI :
    ∀ l : List Insight, (sortByEI l).length = l.length := by
  intro l
  induction l with
  | nil => rfl
  | cons j rest ih =>
    unfold sortByEI
    rw [length_insertByEI, ih]
    rfl

/-- When the store is exactly one over capacity and some active,
non-immune, non-excluded insight exists, the prune pass removes at least
one row, bringing the count back to capacity. -/
theorem auto_prune_over_by_one (s : Store) (m : ℕ) (ex : List String)
    (now : ℤ) (hover : countActive s = m + 1)
    (hj : ∃ j ∈ s.insights, j.deletedAt.isNone = true ∧
      j.importance < 4 ∧ j.accessCount < 3 ∧ j.id ∉ ex) :
    countActive (auto_prune s m ex now).1 ≤ m := by
  obtain ⟨j, hjmem, hjdel, hjimp, hjacc, hjex⟩ := hj
  unfold auto_prune
  rw [if_neg (by omega)]
  have hjfilter : j ∈ s.insights.filter (fun i =>
      i.deletedAt.isNone && decide (i.importance < 4) &&
      decide (i.accessCount < 3) && !(ex.contains i.id)) := by
    apply List.mem_filter.mpr
    refine ⟨hjmem, ?_⟩
    simp [hjdel, hjimp, hjacc, hjex]
  have hexcess : min (countActive s - m) PRUNE_BATCH_SIZE = 1 := by
    rw [hover]
    simp [PRUNE_BATCH_SIZE]
  rw [hexcess]
  have hlen : (sortByEI (s.insights.filter (fun i =>
      i.deletedAt.isNone && decide (i.importance < 4) &&
      decide (i.accessCount < 3) && !(ex.contains i.id)))).length ≠ 0 := by
    rw [length_sortByEI]
    intro h0
    rw [List.length_eq_zero] at h0
    rw [h0] at hjfilter
    exact List.not_mem_nil j hjfilter
  cases hsf : sortByEI (s.insights.filter (fun i =>
      i.deletedAt.isNone && decide (i.importance < 4) &&
      decide (i.accessCount < 3) && !(ex.contains i.id))) with
  | nil => rw [hsf] at hlen; simp at hlen
  | cons h0 t =>
    have hh0 : h0 ∈ s.insights.filter (fun i =>
        i.deletedAt.isNone && decide (i.importance < 4) &&
        decide (i.accessCount < 3) && !(ex.contains i.id)) := by
      apply mem_of_mem_sortByEI
      rw [hsf]
      exact List.mem_cons_self _ _
    have hh0mem : h0 ∈ s.insights := (List.mem_filter.mp hh0).1
    have hh0active : h0.deletedAt.isNone = true := by
      have := (List.mem_filter.mp hh0).2
      simp only [Bool.and_eq_true] at this
      exact this.1.1.1
    show countActive (pruneFold now (s, 0) h0.id).1 ≤ m
    unfold pruneFold
    have hcnt : ¬ s.insights.countP
        (fun i => i.id == h0.id && i.deletedAt.isNone) = 0 := by
      intro hzero
      have := List.countP_eq_zero.mp hzero h0 hh0mem
      simp [hh0active] at this
    rw [if_neg hcnt]
    show countActive (delete_edges_by_node (markDeleted s h0.id now)
      h0.id) ≤ m
    rw [countActive_deleteEdges, countActive_markDeleted]
    have hpos : 0 < s.insights.countP
        (fun i => i.id == h0.id && i.deletedAt.isNone) :=
      Nat.pos_of_ne_zero hcnt
    omega

/-- C2 (corrected): a successful write keeps the active count at or
under `MAX_INSIGHTS` provided the pre-write store was within capacity
and, when it sat exactly at capacity, contained at least one
prune-eligible (non-immune) active insight.  Without those provisos the
claim fails: auto-prune skips immune insights and caps each pass at ten
deletions, so over-full or all-immune stores stay over capacity. -/
theorem c2_write_capacity (s : Store) (i : Insight)
    (replacedId : Option String) (genEdges : List Edge) (eiVal : ℚ)
    (now : ℤ)
    (hfresh : ∀ j ∈ s.insights, j.id ≠ i.id)
    (hactive : i.deletedAt = none)
    (hcap : countActive s ≤ MAX_INSIGHTS)
    (hslack : countActive s = MAX_INSIGHTS → ∃ j ∈ s.insights,
      j.deletedAt.isNone = true ∧ j.importance < 4 ∧ j.accessCount < 3) :
    countActive (tx_body s i replacedId genEdges eiVal now).1 ≤
      MAX_INSIGHTS := by
  unfold tx_body
  have hc4 : countActive (setEffectiveImportance
      (applyEdges (insert_insight (tryReplaceDelete s replacedId now) i)
        genEdges) i.id eiVal) =
      countActive (tryReplaceDelete s replacedId now) + 1 := by
    rw [countActive_setEI]
    show countActive (applyEdges
      (insert_insight (tryReplaceDelete s replacedId now) i) genEdges) =
      _
    unfold countActive
    rw [applyEdges_insights]
    have := countActive_insert (tryReplaceDelete s replacedId now) i
      hactive
    unfold countActive at this
    exact this
  rcases tryReplaceDelete_cases s replacedId now with heq | hlt
  · rw [heq] at hc4 ⊢
    by_cases hstrict : countActive s < MAX_INSIGHTS
    · have hunder : countActive (setEffectiveImportance
          (applyEdges (insert_insight s i) genEdges) i.id eiVal) ≤
          MAX_INSIGHTS := by omega
      unfold auto_prune
      rw [if_pos hunder]
      exact hunder
    · have hexact : countActive s = MAX_INSIGHTS := by omega
      obtain ⟨j, hjmem, hjdel, hjimp, hjacc⟩ := hslack hexact
      apply auto_prune_over_by_one
      · omega
      · refine ⟨j, ?_, hjdel, hjimp, hjacc, ?_⟩
        · show j ∈ (setEffectiveImportance (applyEdges
            (insert_insight s i) genEdges) i.id eiVal).insights
          unfold setEffectiveImportance
          dsimp only
          rw [applyEdges_insights]
          apply List.mem_map.mpr
          refine ⟨j, ?_, ?_⟩
          · exact List.mem_append_left _ hjmem
          · have hne' : ¬ ((j.id == i.id) = true) := by
              intro hbeq
              exact hfresh j hjmem (beq_iff_eq.mp hbeq)
            rw [if_neg hne']
        · intro hmem
          rw [List.mem_singleton] at hmem
          exact hfresh j hjmem hmem
  · have hle : countActive (setEffectiveImportance
        (applyEdges (insert_insight (tryReplaceDelete s replacedId now) i)
          genEdges) i.id eiVal) ≤ MAX_INSIGHTS := by omega
    unfold auto_prune
    rw [if_pos hle]
    exact hle

/-- An immune insight (importance 5) with a numeric id. -/
def mkImmune (k : ℕ) : Insight :=
  { id := toString k, content := "x", category := "general",
    importance := 5, tags := [], entities := [], source := "user",
    accessCount := 0, createdAt := (k : ℤ), updatedAt := (k : ℤ),
    deletedAt := none, lastAccessedAt := none, effectiveImportance := 0 }

/-- A store already at 1001 active insights, all immune to pruning. -/
def bigImmuneStore : Store :=
  { insights := (List.range 1001).map mkImmune, edges := [] }

/-- A fresh immune insight to write into the over-full store. -/
def freshImmune : Insight :=
  { id := "new", content := "y", category := "general", importance := 5,
    tags := [], entities := [], source := "user", accessCount := 0,
    createdAt := 2000, updatedAt := 2000, deletedAt := none,
    lastAccessedAt := none, effectiveImportance := 0 }

set_option maxRecDepth 100000 in
/-- C2 counterexample: writing into a store of 1001 active immune
insights leaves 1002 active insights — auto-prune finds no non-immune
candidate, so the count exceeds `MAX_INSIGHTS = 1000` after the write. -/
theorem c2_counterexample :
    countActive (tx_body bigImmuneStore freshImmune none [] 0 0).1 =
        1002 ∧
      ¬ (countActive (tx_body bigImmuneStore freshImmune none [] 0 0).1 ≤
        MAX_INSIGHTS) := by
  have hbig : countActive bigImmuneStore = 1001 := by
    unfold countActive bigImmuneStore
    dsimp only
    rw [List.countP_eq_length.mpr, List.length_map, List.length_range]
    intro x hx
    obtain ⟨k, _, hk⟩ := List.mem_map.mp hx
    subst hk
    rfl
  have hc4 : countActive (setEffectiveImportance
      (insert_insight bigImmuneStore freshImmune) "new" 0) = 1002 := by
    rw [countActive_setEI,
      countActive_insert bigImmuneStore freshImmune rfl, hbig]
  have hfilter : (setEffectiveImportance
      (insert_insight bigImmuneStore freshImmune) "new" 0).insights.filter
        (fun i => i.deletedAt.isNone && decide (i.importance < 4) &&
          decide (i.accessCount < 3) && !(["new"].contains i.id)) = [] := by
    apply List.filter_eq_nil_iff.mpr
    intro x hx hpred
    have himp : x.importance < 4 := by
      have h1 := (Bool.and_eq_true _ _).mp hpred
      have h2 := (Bool.and_eq_true _ _).mp h1.1
      have h3 := (Bool.and_eq_true _ _).mp h2.1
      exact of_decide_eq_true h3.2
    have hx2 : x ∈ ((List.range 1001).map mkImmune ++ [freshImmune]).map
        (fun i => if i.id == "new"
          then { i with effectiveImportance := 0 } else i) := hx
    obtain ⟨y, hy, hgy⟩ := List.mem_map.mp hx2
    have hyimp : y.importance = 5 := by
      rcases List.mem_append.mp hy with hy1 | hy2
      · obtain ⟨k, _, hk⟩ := List.mem_map.mp hy1
        subst hk
        rfl
      · rw [List.mem_singleton] at hy2
        subst hy2
        rfl
    have hximp : x.importance = 5 := by
      subst hgy
      by_cases hc : (y.id == "new") = true
      · rw [if_pos hc]
        exact hyimp
      · rw [if_neg hc]
        exact hyimp
    omega
  have hcount : countActive
      (tx_body bigImmuneStore freshImmune none [] 0 0).1 = 1002 := by
    show countActive (auto_prune (setEffectiveImportance
      (insert_insight bigImmuneStore freshImmune) "new" 0)
      MAX_INSIGHTS ["new"] 0).1 = 1002
    unfold auto_prune
    rw [if_neg (by rw [hc4]; decide), hfilter]
    exact hc4
  exact ⟨hcount, by rw [hcount]; decide⟩

/-- C2 witness. -/
theorem c2_witness :
    countActive (tx_body ({ insights := [], edges := [] } : Store)
      sampleInsight1 none [] 0 0).1 ≤ MAX_INSIGHTS :=
  c2_write_capacity ({ insights := [], edges := [] } : Store)
    sampleInsight1 none [] 0 0
    (fun j hj => absurd hj (List.not_mem_nil j)) rfl (by decide)
    (by decide)

/-! ### Claim C5: edge direction and mirroring discipline -/

/-- Python dict assignment `metadata['created_by'] = 'claude'` on an
association list: replace in place or append. -/
def setKey (m : List (String × String)) (k v : String) :
    List (String × String) :=
  if m.any (fun p => p.1 == k)
  then m.map (fun p => if p.1 == k then (k, v) else p)
  else m ++ [(k, v)]

/-- Dict lookup on an association list. -/
def lookupKey (k : String) (m : List (String × String)) : Option String :=
  (m.find? (fun p => p.1 == k)).map Prod.snd

/-- Drop one key from an association list (used to compare backbone
metadata up to the `direction` field). -/
def dropKey (k : String) (m : List (String × String)) :
    List (String × String) :=
  m.filter (fun p => p.1 != k)

/-- `get_latest_insight_by_source` from `store/node.py`:
`ORDER BY created_at DESC, rowid DESC LIMIT 1` over active insights of
the source, excluding one id; the fold keeps the latest-created,
latest-inserted match. -/
def get_latest_insight_by_source (s : Store) (source excludeId : String) :
    Option Insight :=
  s.insights.foldl (fun acc i =>
    if i.source == source && i.id != excludeId && i.deletedAt.isNone then
      match acc with
      | none => some i
      | some b => if b.createdAt ≤ i.createdAt then some i else acc
    else acc) none

/-- Descending insertion by `created_at` (SQLite leaves tie order
unspecified; the model uses insertion sort). -/
def insertByCreatedDesc (i : Insight) : List Insight → List Insight
  | [] => [i]
  | j :: rest =>
    if j.createdAt ≤ i.createdAt then i :: j :: rest
    else j :: insertByCreatedDesc i rest

/-- `ORDER BY created_at DESC`. -/
def sortByCreatedDesc : List Insight → List Insight
  | [] => []
  | i :: rest => insertByCreatedDesc i (sortByCreatedDesc rest)

/-- `get_recent_insights_in_window` from `store/node.py`. -/
def get_recent_insights_in_window (s : Store) (excludeId : String)
    (windowHours : ℕ) (limit : ℕ) (now : ℤ) : List Insight :=
  (sortByCreatedDesc (s.insights.filter (fun i =>
    i.id != excludeId && i.deletedAt.isNone &&
    decide (now - (windowHours : ℤ) * 3600 ≤ i.createdAt)))).take limit

/-- `get_recent_active_insights` from `store/node.py`. -/
def get_recent_active_insights (s : Store) (excludeId : String)
    (limit : ℕ) : List Insight :=
  (sortByCreatedDesc (s.insights.filter (fun i =>
    i.id != excludeId && i.deletedAt.isNone))).take limit

/-- `find_insights_with_entity` from `store/edge.py` (the ids are
distinct because each insight row appears once). -/
def find_insights_with_entity (s : Store) (entity excludeId : String)
    (limit : ℕ) : List String :=
  ((sortByCreatedDesc (s.insights.filter (fun i =>
    i.deletedAt.isNone && i.id != excludeId &&
    i.entities.contains entity))).take limit).map Insight.id

/-- `create_temporal_edge` from `graph/temporal.py`, as the list of
inserted rows: the backbone pair toward the latest same-source insight
(metadata `direction` distinguishes the two rows), then a mirrored
proximity pair per recent insight in the 24-hour window, skipping the
backbone target. -/
def createTemporalEdge (insight : Insight) (prev : Option Insight)
    (recent : List Insight) (now : ℤ) : List Edge :=
  (match prev with
   | none => []
   | some p =>
     [{ sourceId := p.id, targetId := insight.id, edgeType := "temporal",
        weight := 1,
        metadata := [("sub_type", "backbone"), ("direction", "precedes")],
        createdAt := now },
      { sourceId := insight.id, targetId := p.id, edgeType := "temporal",
        weight := 1,
        metadata := [("sub_type", "backbone"), ("direction", "succeeds")],
        createdAt := now }]) ++
  recent.flatMap (fun near =>
    if near.id == (match prev with | some p => p.id | none => "")
    then []
    else
      [{ sourceId := insight.id, targetId := near.id,
         edgeType := "temporal",
         weight := 1 / (1 + |((insight.createdAt - near.createdAt : ℤ) : ℚ)| / 3600),
         metadata := [("sub_type", "proximity"),
           ("hours_diff",
            formatFloat2 (|((insight.createdAt - near.createdAt : ℤ) : ℚ)| / 3600))],
         createdAt := now },
       { sourceId := near.id, targetId := insight.id,
         edgeType := "temporal",
         weight := 1 / (1 + |((insight.createdAt - near.createdAt : ℤ) : ℚ)| / 3600),
         metadata := [("sub_type", "proximity"),
           ("hours_diff",
            formatFloat2 (|((insight.createdAt - near.createdAt : ℤ) : ℚ)| / 3600))],
         createdAt := now }])

/-- `MAX_ENTITY_LINKS` from `graph/entity.py`. -/
def MAX_ENTITY_LINKS : ℕ := 5

/-- `MAX_TOTAL_ENTITY_EDGES` from `graph/entity.py`. -/
def MAX_TOTAL_ENTITY_EDGES : ℕ := 50

/-- Inner target loop of `create_entity_edges`: the capacity check runs
between pairs, and each accepted target gets both directed rows with the
same metadata. -/
def entityInner (insightId entity : String) (w : ℚ) (now : ℤ) :
    List String → ℕ → List Edge × ℕ
  | [], c => ([], c)
  | t :: ts, c =>
    if MAX_TOTAL_ENTITY_EDGES ≤ c then ([], c)
    else
      let rest := entityInner insightId entity w now ts (c + 2)
      ({ sourceId := insightId, targetId := t, edgeType := "entity",
         weight := w, metadata := [("entity", entity)],
         createdAt := now } ::
       { sourceId := t, targetId := insightId, edgeType := "entity",
         weight := w, metadata := [("entity", entity)],
         createdAt := now } :: rest.1, rest.2)

/-- Outer entity loop of `create_entity_edges`: skip entities with no
matches or (under IDF) zero weight. -/
def entityLoop (insightId : String) (useIdf : Bool)
    (findIds : String → List String) (weightOf : String → ℚ) (now : ℤ) :
    List String → ℕ → List Edge
  | [], _ => []
  | ent :: rest, c =>
    if MAX_TOTAL_ENTITY_EDGES ≤ c then []
    else if findIds ent = [] then
      entityLoop insightId useIdf findIds weightOf now rest c
    else if useIdf && decide ((weightOf ent) = 0) then
      entityLoop insightId useIdf findIds weightOf now rest c
    else
      (entityInner insightId ent (if useIdf then weightOf ent else 1) now
        (findIds ent) c).1 ++
      entityLoop insightId useIdf findIds weightOf now rest
        (entityInner insightId ent (if useIdf then weightOf ent else 1) now
          (findIds ent) c).2

/-- `create_entity_edges` from `graph/entity.py`.  `useIdf` models
`count_active_insights(db) > 5`; `weightOf e` models
`entity_idf_weight(count_insights_with_entity(db, e, id) + 1,
total_docs)` — abstracted as an arbitrary rational because the IDF
weight is transcendental; the structure theorems quantify over every
weight function. -/
def createEntityEdges (insight : Insight) (useIdf : Bool)
    (findIds : String → List String) (weightOf : String → ℚ)
    (now : ℤ) : List Edge :=
  if insight.entities = [] then []
  else entityLoop insight.id useIdf findIds weightOf now
    insight.entities 0

/-- The insertion loop of `create_semantic_edges` in
`graph/semantic.py`: for each selected `(id, cosine)` pair, both
directed rows with identical metadata.  The selection stage (cosine over
the float embedding cache) is abstracted by quantifying over every
`scored` list. -/
def semanticInsertLoop (insightId : String)
    (scored : List (String × ℚ)) (now : ℤ) : List Edge :=
  scored.flatMap (fun p =>
    [{ sourceId := insightId, targetId := p.1, edgeType := "semantic",
       weight := p.2,
       metadata := [("created_by", "auto"), ("cosine", formatFloat4 p.2)],
       createdAt := now },
     { sourceId := p.1, targetId := insightId, edgeType := "semantic",
       weight := p.2,
       metadata := [("created_by", "auto"), ("cosine", formatFloat4 p.2)],
       createdAt := now }])

/-- The `link` command from `cli.py`: after validation it inserts the
edge in both directions with the same weight and the same metadata
(user metadata plus `created_by = claude`), for every valid edge type —
including `causal`. -/
def applyLink (s : Store) (sourceId targetId edgeType : String)
    (weight : ℚ) (meta : List (String × String)) (now : ℤ) : Store :=
  insertEdgeStore
    (insertEdgeStore s
      { sourceId := sourceId, targetId := targetId,
        edgeType := edgeType, weight := weight,
        metadata := setKey meta "created_by" "claude", createdAt := now })
    { sourceId := targetId, targetId := sourceId,
      edgeType := edgeType, weight := weight,
      metadata := setKey meta "created_by" "claude", createdAt := now }

/-- The edge-writing steps of the remember transaction
(`on_insight_created` in `graph/engine.py`): insert the insight, then
run the temporal, entity, causal and semantic generators in order.  The
generators' table queries run against the post-insert insights table,
which no edge insert changes. -/
def applyRemember (s : Store) (i : Insight)
    (scored : List (String × ℚ)) (weightOf : String → ℚ) (now : ℤ) :
    Store :=
  applyEdges
    (applyEdges
      (applyEdges
        (applyEdges (insert_insight s i)
          (createTemporalEdge i
            (get_latest_insight_by_source (insert_insight s i) i.source
              i.id)
            (get_recent_insights_in_window (insert_insight s i) i.id 24
              10 now)
            now))
        (createEntityEdges i (decide (5 < countActive (insert_insight s i)))
          (fun ent => find_insights_with_entity (insert_insight s i) ent
            i.id MAX_ENTITY_LINKS)
          weightOf now))
      (createCausalEdges i
        (get_recent_active_insights (insert_insight s i) i.id 10) now))
    (semanticInsertLoop i.id scored now)

/-- Store states reachable through the exposed write operations: the
remember pipeline (semantic selection and IDF weights abstracted by
quantification), the user `link` verb, and soft deletion (covering both
the `forget` verb and auto-prune's per-victim deletions). -/
inductive Reach : Store → Prop where
  | empty : Reach { insights := [], edges := [] }
  | remember (s : Store) (i : Insight) (scored : List (String × ℚ))
      (weightOf : String → ℚ) (now : ℤ) :
      Reach s → i.deletedAt = none → (∀ j ∈ s.insights, j.id ≠ i.id) →
      Reach (applyRemember s i scored weightOf now)
  | link (s : Store) (srcId tgtId ty : String) (w : ℚ)
      (meta : List (String × String)) (now : ℤ) :
      Reach s → ty ∈ ["temporal", "semantic", "causal", "entity"] →
      0 ≤ w → w ≤ 1 →
      (get_insight_by_id s srcId).isSome = true →
      (get_insight_by_id s tgtId).isSome = true →
      Reach (applyLink s srcId tgtId ty w meta now)
  | forget (s : Store) (id : String) (now : ℤ) (s' : Store) :
      Reach s → soft_delete_insight s id now = .ok s' → Reach s'

/-- `e'` is the mirror row of `e`: swapped endpoints, same type and
weight, and the same metadata — except that backbone rows may differ in
the `direction` field alone. -/
def mirrorRow (e e' : Edge) : Prop :=
  e'.sourceId = e.targetId ∧ e'.targetId = e.sourceId ∧
  e'.edgeType = e.edgeType ∧ e'.weight = e.weight ∧
  dropKey "direction" e'.metadata = dropKey "direction" e.metadata ∧
  (lookupKey "sub_type" e.metadata = some "backbone" ∨
    e'.metadata = e.metadata)

instance (e e' : Edge) : Decidable (mirrorRow e e') := by
  unfold mirrorRow
  infer_instance

/-- The amended invariant: every non-causal row has its mirror row. -/
def mirrored (s : Store) : Prop :=
  ∀ e ∈ s.edges, e.edgeType ≠ "causal" → ∃ e' ∈ s.edges, mirrorRow e e'

/-- The claim as stated: every non-causal relationship appears as two
mirrored rows with identical metadata, and no causal edge has a reverse
causal row. -/
def claimedC5 (s : Store) : Prop :=
  (∀ e ∈ s.edges, e.edgeType ≠ "causal" → ∃ e' ∈ s.edges,
    e'.sourceId = e.targetId ∧ e'.targetId = e.sourceId ∧
    e'.edgeType = e.edgeType ∧ e'.metadata = e.metadata) ∧
  (∀ e ∈ s.edges, e.edgeType = "causal" → ¬ ∃ e' ∈ s.edges,
    e'.sourceId = e.targetId ∧ e'.targetId = e.sourceId ∧
    e'.edgeType = "causal" ∧ e' ≠ e)

instance (s : Store) : Decidable (claimedC5 s) := by
  unfold claimedC5
  infer_instance

/-- Unpack the primary-key test into field equations. -/
theorem sameKey_iff (a b : Edge) :
    sameKey a b = true ↔
      a.sourceId = b.sourceId ∧ a.targetId = b.targetId ∧
        a.edgeType = b.edgeType := by
  unfold sameKey
  simp [Bool.and_eq_true, and_assoc]

/-- A mirror's key is the swapped key: if the mirror of `x` collides
with `f`, then `x` itself collides with `f`'s mirror `r`. -/
theorem sameKey_mirror_transfer (x x' f r : Edge)
    (hxm : mirrorRow x x') (hfr : mirrorRow f r)
    (hcol : sameKey x' f = true) : sameKey x r = true := by
  obtain ⟨h1, h2, h3, -, -, -⟩ := hxm
  obtain ⟨g1, g2, g3, -, -, -⟩ := hfr
  obtain ⟨c1, c2, c3⟩ := (sameKey_iff x' f).mp hcol
  apply (sameKey_iff x r).mpr
  refine ⟨?_, ?_, ?_⟩
  · rw [g1, ← c2, h2]
  · rw [g2, ← c1, h1]
  · rw [g3, ← c3, h3]

/-- Inserting a causal row preserves the mirror invariant: it can only
replace causal rows, which the invariant does not constrain. -/
theorem mirrored_insert_causal (s : Store) (e : Edge)
    (he : e.edgeType = "causal") (hs : mirrored s) :
    mirrored (insertEdgeStore s e) := by
  intro x hx hxty
  rcases List.mem_append.mp hx with hx1 | hx2
  · have hxs : x ∈ s.edges := List.mem_of_mem_filter hx1
    obtain ⟨x', hx', hm⟩ := hs x hxs hxty
    refine ⟨x', List.mem_append_left _ ?_, hm⟩
    apply List.mem_filter.mpr
    refine ⟨hx', ?_⟩
    simp only [Bool.not_eq_true']
    apply Bool.eq_false_iff.mpr
    intro hcol
    obtain ⟨-, -, c3⟩ := (sameKey_iff x' e).mp hcol
    exact hxty (hm.2.2.1 ▸ c3 ▸ he ▸ rfl)
  · rw [List.mem_singleton] at hx2
    subst hx2
    exact absurd he hxty

/-- Inserting a mutually mirrored pair preserves the mirror invariant:
the two new rows mirror each other, and any untouched row's mirror is
untouched because the pair replaces exactly the two swapped keys. -/
theorem mirrored_insert_pair (s : Store) (f r : Edge)
    (hfr : mirrorRow f r) (hrf : mirrorRow r f) (hs : mirrored s) :
    mirrored (insertEdgeStore (insertEdgeStore s f) r) := by
  intro x hx hxty
  rcases List.mem_append.mp hx with hx1 | hx2
  · have hx1' := List.mem_filter.mp hx1
    rcases List.mem_append.mp hx1'.1 with hxa | hxb
    · have hxs : x ∈ s.edges := List.mem_of_mem_filter hxa
      have hxkf : (!(sameKey x f)) = true := (List.mem_filter.mp hxa).2
      have hxkr : (!(sameKey x r)) = true := hx1'.2
      obtain ⟨x', hx', hm⟩ := hs x hxs hxty
      have hx'kf : (!(sameKey x' f)) = true := by
        simp only [Bool.not_eq_true']
        apply Bool.eq_false_iff.mpr
        intro hcol
        have := sameKey_mirror_transfer x x' f r hm hfr hcol
        rw [this] at hxkr
        simp at hxkr
      have hx'kr : (!(sameKey x' r)) = true := by
        simp only [Bool.not_eq_true']
        apply Bool.eq_false_iff.mpr
        intro hcol
        have := sameKey_mirror_transfer x x' r f hm hrf hcol
        rw [this] at hxkf
        simp at hxkf
      refine ⟨x', ?_, hm⟩
      apply List.mem_append_left
      apply List.mem_filter.mpr
      refine ⟨List.mem_append_left _ (List.mem_filter.mpr ⟨hx', hx'kf⟩),
        hx'kr⟩
    · rw [List.mem_singleton] at hxb
      subst hxb
      exact ⟨r, List.mem_append_right _ (List.mem_singleton.mpr rfl), hfr⟩
  · rw [List.mem_singleton] at hx2
    subst hx2
    by_cases hcol : sameKey f x = true
    · obtain ⟨c1, c2, c3⟩ := (sameKey_iff f x).mp hcol
      obtain ⟨g1, g2, g3, g4, g5, g6⟩ := hrf
      refine ⟨x, List.mem_append_right _ (List.mem_singleton.mpr rfl),
        ?_, ?_, rfl, rfl, rfl, Or.inr rfl⟩
      · rw [g1] at c1
        exact c1.symm
      · rw [g2] at c2
        exact c2.symm
    · refine ⟨f, ?_, hrf⟩
      apply List.mem_append_left
      apply List.mem_filter.mpr
      refine ⟨List.mem_append_right _ (List.mem_singleton.mpr rfl), ?_⟩
      simp only [Bool.not_eq_true']
      exact Bool.eq_false_iff.mpr hcol

/-- A generated edge list that the fold may insert without breaking the
mirror invariant: a sequence of mutually mirrored pairs and single
causal rows. -/
inductive SafeEdges : List Edge → Prop where
  | nil : SafeEdges []
  | causal (e : Edge) (rest : List Edge) : e.edgeType = "causal" →
      SafeEdges rest → SafeEdges (e :: rest)
  | pair (f r : Edge) (rest : List Edge) : mirrorRow f r → mirrorRow r f →
      SafeEdges rest → SafeEdges (f :: r :: rest)

/-- Concatenation preserves safety. -/
theorem SafeEdges.append {l1 l2 : List Edge} (h1 : SafeEdges l1)
    (h2 : SafeEdges l2) : SafeEdges (l1 ++ l2) := by
  induction h1 with
  | nil => exact h2
  | causal e rest he _ ih => exact SafeEdges.causal e _ he ih
  | pair f r rest hfr hrf _ ih => exact SafeEdges.pair f r _ hfr hrf ih

/-- Folding a safe edge list into a mirrored store keeps it mirrored. -/
theorem mirrored_applyEdges {es : List Edge} (hsafe : SafeEdges es) :
    ∀ s : Store, mirrored s → mirrored (applyEdges s es) := by
  induction hsafe with
  | nil => exact fun s hs => hs
  | causal e rest he _ ih =>
    intro s hs
    show mirrored (applyEdges (insertEdgeStore s e) rest)
    exact ih _ (mirrored_insert_causal s e he hs)
  | pair f r rest hfr hrf _ ih =>
    intro s hs
    show mirrored (applyEdges (insertEdgeStore (insertEdgeStore s f) r)
      rest)
    exact ih _ (mirrored_insert_pair s f r hfr hrf hs)

/-- The temporal generator emits only mirrored pairs: the backbone pair
(backbone metadata, differing only in `direction`) and identical
proximity pairs. -/
theorem safe_temporal (i : Insight) (prev : Option Insight)
    (recent : List Insight) (now : ℤ) :
    SafeEdges (createTemporalEdge i prev recent now) := by
  unfold createTemporalEdge
  apply SafeEdges.append
  · cases prev with
    | none => exact SafeEdges.nil
    | some p =>
      exact SafeEdges.pair _ _ _
        ⟨rfl, rfl, rfl, rfl, rfl, Or.inl rfl⟩
        ⟨rfl, rfl, rfl, rfl, rfl, Or.inl rfl⟩ SafeEdges.nil
  · induction recent with
    | nil => exact SafeEdges.nil
    | cons near rest ih =>
      rw [List.flatMap_cons]
      apply SafeEdges.append _ ih
      split
      · exact SafeEdges.nil
      · exact SafeEdges.pair _ _ _
          ⟨rfl, rfl, rfl, rfl, rfl, Or.inr rfl⟩
          ⟨rfl, rfl, rfl, rfl, rfl, Or.inr rfl⟩ SafeEdges.nil

/-- The inner entity loop emits whole mirrored pairs (the capacity check
sits between pairs). -/
theorem safe_entityInner (insightId ent : String) (w : ℚ) (now : ℤ) :
    ∀ (ids : List String) (c : ℕ),
      SafeEdges (entityInner insightId ent w now ids c).1 := by
  intro ids
  induction ids with
  | nil => intro c; exact SafeEdges.nil
  | cons t ts ih =>
    intro c
    unfold entityInner
    by_cases hc : MAX_TOTAL_ENTITY_EDGES ≤ c
    · rw [if_pos hc]
      exact SafeEdges.nil
    · rw [if_neg hc]
      exact SafeEdges.pair _ _ _
        ⟨rfl, rfl, rfl, rfl, rfl, Or.inr rfl⟩
        ⟨rfl, rfl, rfl, rfl, rfl, Or.inr rfl⟩ (ih (c + 2))

/-- The outer entity loop is a concatenation of safe blocks. -/
theorem safe_entityLoop (insightId : String) (useIdf : Bool)
    (findIds : String → List String) (weightOf : String → ℚ) (now : ℤ) :
    ∀ (ents : List String) (c : ℕ),
      SafeEdges (entityLoop insightId useIdf findIds weightOf now ents
        c) := by
  intro ents
  induction ents with
  | nil => intro c; exact SafeEdges.nil
  | cons ent rest ih =>
    intro c
    unfold entityLoop
    by_cases h1 : MAX_TOTAL_ENTITY_EDGES ≤ c
    · rw [if_pos h1]
      exact SafeEdges.nil
    · rw [if_neg h1]
      by_cases h2 : findIds ent = []
      · rw [if_pos h2]
        exact ih c
      · rw [if_neg h2]
        by_cases h3 : (useIdf && decide ((weightOf ent) = 0)) = true
        · rw [if_pos h3]
          exact ih c
        · rw [if_neg h3]
          exact SafeEdges.append (safe_entityInner _ _ _ _ _ _) (ih _)

/-- The entity generator is safe. -/
theorem safe_createEntityEdges (insight : Insight) (useIdf : Bool)
    (findIds : String → List String) (weightOf : String → ℚ) (now : ℤ) :
    SafeEdges (createEntityEdges insight useIdf findIds weightOf now) := by
  unfold createEntityEdges
  by_cases h : insight.entities = []
  · rw [if_pos h]
    exact SafeEdges.nil
  · rw [if_neg h]
    exact safe_entityLoop _ _ _ _ _ _ _

/-- A list of causal rows is safe. -/
theorem safeEdges_of_all_causal :
    ∀ l : List Edge, (∀ e ∈ l, e.edgeType = "causal") → SafeEdges l := by
  intro l
  induction l with
  | nil => intro _; exact SafeEdges.nil
  | cons e rest ih =>
    intro h
    exact SafeEdges.causal e rest (h e (List.mem_cons_self _ _))
      (ih fun x hx => h x (List.mem_cons_of_mem _ hx))

/-- Every edge emitted by the causal generator comes from one accepted
candidate. -/
theorem mem_createCausalEdges (i : Insight) (recent : List Insight)
    (now : ℤ) (e : Edge) (he : e ∈ createCausalEdges i recent now) :
    ∃ p ∈ recent, causalEdgeFor i now p = some e := by
  unfold createCausalEdges at he
  by_cases h1 : recent = []
  · rw [if_pos h1] at he
    exact absurd he (List.not_mem_nil e)
  · rw [if_neg h1] at he
    by_cases h2 : tokenize i.content = ∅
    · rw [if_pos h2] at he
      exact absurd he (List.not_mem_nil e)
    · rw [if_neg h2] at he
      exact List.mem_filterMap.mp he

/-- The causal generator is safe (all rows causal). -/
theorem safe_createCausalEdges (i : Insight) (recent : List Insight)
    (now : ℤ) : SafeEdges (createCausalEdges i recent now) := by
  apply safeEdges_of_all_causal
  intro e he
  obtain ⟨p, -, hp⟩ := mem_createCausalEdges i recent now e he
  exact (causalEdgeFor_some i now p e hp).1

/-- The semantic insertion loop emits identical mirrored pairs. -/
theorem safe_semanticInsertLoop (insightId : String)
    (scored : List (String × ℚ)) (now : ℤ) :
    SafeEdges (semanticInsertLoop insightId scored now) := by
  unfold semanticInsertLoop
  induction scored with
  | nil => exact SafeEdges.nil
  | cons p ps ih =>
    rw [List.flatMap_cons]
    exact SafeEdges.append
      (SafeEdges.pair _ _ _
        ⟨rfl, rfl, rfl, rfl, rfl, Or.inr rfl⟩
        ⟨rfl, rfl, rfl, rfl, rfl, Or.inr rfl⟩ SafeEdges.nil) ih

/-- Soft deletion removes both rows of any touched pair together, so the
mirror invariant survives. -/
theorem mirrored_soft_delete (s : Store) (id : String) (now : ℤ)
    (s' : Store) (h : soft_delete_insight s id now = .ok s')
    (hs : mirrored s) : mirrored s' := by
  unfold soft_delete_insight at h
  by_cases h0 : s.insights.countP
      (fun i => i.id == id && i.deletedAt.isNone) = 0
  · rw [if_pos h0] at h
    exact absurd h (by simp)
  · rw [if_neg h0] at h
    rw [Except.ok.injEq] at h
    subst h
    intro x hx hxty
    have hx' := List.mem_filter.mp hx
    have hxs : x ∈ s.edges := hx'.1
    obtain ⟨x', hm', hmm⟩ := hs x hxs hxty
    refine ⟨x', List.mem_filter.mpr ⟨hm', ?_⟩, hmm⟩
    obtain ⟨h1, h2, -, -, -, -⟩ := hmm
    have hxt := hx'.2
    simp only [Bool.not_eq_true', Bool.or_eq_false_iff] at hxt
    simp only [h1, h2, Bool.not_eq_true', Bool.or_eq_false_iff]
    exact ⟨hxt.2, hxt.1⟩

/-- Every reachable store satisfies the mirror invariant. -/
theorem reach_mirrored : ∀ s : Store, Reach s → mirrored s := by
  intro s h
  induction h with
  | empty => intro e he _; exact absurd he (List.not_mem_nil e)
  | remember s i scored wf now _ _ _ ih =>
    unfold applyRemember
    apply mirrored_applyEdges (safe_semanticInsertLoop _ _ _)
    apply mirrored_applyEdges (safe_createCausalEdges _ _ _)
    apply mirrored_applyEdges (safe_createEntityEdges _ _ _ _ _)
    apply mirrored_applyEdges (safe_temporal _ _ _ _)
    exact ih
  | link s srcId tgtId ty w meta now _ _ _ _ _ _ ih =>
    exact mirrored_insert_pair _ _ _
      ⟨rfl, rfl, rfl, rfl, rfl, Or.inr rfl⟩
      ⟨rfl, rfl, rfl, rfl, rfl, Or.inr rfl⟩ ih
  | forget s id now s' _ hok ih =>
    exact mirrored_soft_delete s id now s' hok ih

/-- Orientation of a generated causal edge, as a function of whether the
new insight's text carries the signal. -/
theorem causalEdgeFor_direction (insight : Insight) (now : ℤ)
    (p : Insight) (e : Edge) (h : causalEdgeFor insight now p = some e) :
    (hasCausalSignal insight.content = true →
      e.targetId = insight.id ∧ e.sourceId = p.id) ∧
    (hasCausalSignal insight.content = false →
      e.sourceId = insight.id ∧ e.targetId = p.id) := by
  unfold causalEdgeFor at h
  by_cases hg : (!(hasCausalSignal insight.content) &&
      !(hasCausalSignal p.content)) = true
  · rw [if_pos hg] at h
    exact absurd h (by simp)
  · rw [if_neg hg] at h
    dsimp only at h
    by_cases hov : token_overlap (tokenize insight.content)
        (tokenize p.content) < 3/20
    · rw [if_pos hov] at h
      exact absurd h (by simp)
    · rw [if_neg hov] at h
      rw [Option.some_inj] at h
      subst h
      constructor
      · intro hnew
        constructor <;> simp [hnew]
      · intro hnew
        have hprev : hasCausalSignal p.content = true := by
          by_contra hp
          rw [Bool.not_eq_true] at hp
          apply hg
          simp [hnew, hp]
        constructor <;> simp [hnew, hprev]

/-- C5 (corrected): in every reachable store, every non-causal edge row
has its mirror row with the same type and weight — with identical
metadata except for temporal backbone pairs, whose metadata differ only
in the `direction` field — and the causal generator itself never emits a
mirrored pair.  The original claim's stronger demands fail: backbone
mirrors do not carry identical metadata, and the user `link` verb stores
even causal edges bidirectionally. -/
theorem c5_edge_discipline :
    (∀ s : Store, Reach s → mirrored s) ∧
    (∀ (insight : Insight) (recent : List Insight) (now : ℤ),
      (∀ p ∈ recent, p.id ≠ insight.id) →
      ∀ e ∈ createCausalEdges insight recent now,
        ¬ ∃ e' ∈ createCausalEdges insight recent now,
          e'.sourceId = e.targetId ∧ e'.targetId = e.sourceId) := by
  refine ⟨reach_mirrored, ?_⟩
  intro insight recent now hne e he hex
  obtain ⟨e', he', hs1, hs2⟩ := hex
  obtain ⟨p, hp, hfp⟩ := mem_createCausalEdges insight recent now e he
  obtain ⟨p', hp', hfp'⟩ := mem_createCausalEdges insight recent now e' he'
  cases hnew : hasCausalSignal insight.content with
  | false =>
    have d := (causalEdgeFor_direction insight now p e hfp).2 hnew
    have d' := (causalEdgeFor_direction insight now p' e' hfp').2 hnew
    apply hne p hp
    rw [← d.2, ← hs1]
    exact d'.1
  | true =>
    have d := (causalEdgeFor_direction insight now p e hfp).1 hnew
    have d' := (causalEdgeFor_direction insight now p' e' hfp').1 hnew
    apply hne p' hp'
    rw [← d'.2, hs1]
    exact d.1

/-- First insight of the counterexample trace. -/
def insightA : Insight :=
  { id := "a", content := "alpha", category := "general", importance := 3,
    tags := [], entities := [], source := "user", accessCount := 0,
    createdAt := 0, updatedAt := 0, deletedAt := none,
    lastAccessedAt := none, effectiveImportance := 0 }

/-- Second insight of the counterexample trace (same source, so the
backbone pair toward `insightA` is created). -/
def insightB : Insight :=
  { id := "b", content := "beta", category := "general", importance := 3,
    tags := [], entities := [], source := "user", accessCount := 0,
    createdAt := 100, updatedAt := 100, deletedAt := none,
    lastAccessedAt := none, effectiveImportance := 0 }

/-- Two remember writes followed by a user `link --type causal`. -/
def c5Store : Store :=
  applyLink
    (applyRemember
      (applyRemember ({ insights := [], edges := [] } : Store) insightA
        [] (fun _ => 1) 0)
      insightB [] (fun _ => 1) 100)
    "a" "b" "causal" 1 [] 200

/-- C5 counterexample: a reachable store in which the temporal backbone
rows are mirrored with *different* metadata (`direction` is `precedes`
on one row and `succeeds` on the other) and the user link verb has
stored a causal edge in *both* directions. -/
theorem c5_counterexample : Reach c5Store ∧ ¬ claimedC5 c5Store := by
  constructor
  · apply Reach.link _ _ _ _ _ _ _ ?_ (by decide) zero_le_one le_rfl
      (by decide) (by decide)
    apply Reach.remember _ _ _ _ _ ?_ rfl (by decide)
    exact Reach.remember _ _ _ _ _ Reach.empty rfl
      (fun j hj => absurd hj (List.not_mem_nil j))
  · decide

/-- The new insight of the causal witness pair. -/
def insightN : Insight :=
  { id := "n1", content := "chose sqlite because simplicity matters",
    category := "decision", importance := 3, tags := [], entities := [],
    source := "user", accessCount := 0, createdAt := 10, updatedAt := 10,
    deletedAt := none, lastAccessedAt := none, effectiveImportance := 0 }

/-- The recent insight of the causal witness pair. -/
def insightP : Insight :=
  { id := "p1", content := "sqlite simplicity wins benchmarks",
    category := "fact", importance := 3, tags := [], entities := [],
    source := "user", accessCount := 0, createdAt := 5, updatedAt := 5,
    deletedAt := none, lastAccessedAt := none, effectiveImportance := 0 }

/-- The single causal edge generated for the witness pair. -/
def c5CausalWitnessEdge : Edge :=
  { sourceId := "p1", targetId := "n1", edgeType := "causal",
    weight := token_overlap (tokenize insightN.content)
      (tokenize insightP.content),
    metadata :=
      [("overlap", formatFloat4 (token_overlap (tokenize insightN.content)
         (tokenize insightP.content))),
       ("sub_type",
        suggest_sub_type (insightN.content ++ " " ++ insightP.content))],
    createdAt := 10 }

/-- A remember-only reachable store for the mirror half of the witness. -/
def c5WitnessStore : Store :=
  applyRemember
    (applyRemember ({ insights := [], edges := [] } : Store) insightA []
      (fun _ => 1) 0)
    insightB [] (fun _ => 1) 100

/-- C5 witness. -/
theorem c5_witness :
    mirrored c5WitnessStore ∧
      ¬ ∃ e' ∈ createCausalEdges insightN [insightP] 10,
        e'.sourceId = "n1" ∧ e'.targetId = "p1" := by
  constructor
  · exact c5_edge_discipline.1 c5WitnessStore
      (Reach.remember _ _ _ _ _
        (Reach.remember _ _ _ _ _ Reach.empty rfl
          (fun j hj => absurd hj (List.not_mem_nil j)))
        rfl (by decide))
  · have hov : ¬ token_overlap (tokenize insightN.content)
        (tokenize insightP.content) < 3/20 := by
      have hval : token_overlap (tokenize insightN.content)
          (tokenize insightP.content) = 2/5 := by
        show token_overlap
          (tokenize "chose sqlite because simplicity matters")
          (tokenize "sqlite simplicity wins benchmarks") = 2/5
        unfold token_overlap
        rw [if_neg (by decide),
          show ((tokenize "chose sqlite because simplicity matters" ∩
            tokenize "sqlite simplicity wins benchmarks").card) = 2 from
            by decide,
          show (max (tokenize
            "chose sqlite because simplicity matters").card
            (tokenize "sqlite simplicity wins benchmarks").card) = 5 from
            by decide]
        norm_num
      rw [hval]
      norm_num
    have hfp : causalEdgeFor insightN 10 insightP =
        some c5CausalWitnessEdge := by
      unfold causalEdgeFor c5CausalWitnessEdge
      simp [show hasCausalSignal insightN.content = true from by decide,
        hov]
      exact ⟨rfl, rfl⟩
    have heq : createCausalEdges insightN [insightP] 10 =
        [c5CausalWitnessEdge] := by
      unfold createCausalEdges
      rw [if_neg (by decide), if_neg (by decide)]
      simp [List.filterMap_cons, hfp]
    intro hex
    exact c5_edge_discipline.2 insightN [insightP] 10
      (by
        intro p hp
        rw [List.mem_singleton] at hp
        subst hp
        decide)
      c5CausalWitnessEdge (heq ▸ List.mem_singleton.mpr rfl) hex

end Mnemon
